import Mathlib

/-!
Verification of the TinyCompiled (TC) compiler core: a shallow embedding of
the lexer (`src/lexer/lexer.py`, `src/lexer/keyword.py`, `src/lexer/token.py`),
the recursive-descent parser (`src/parser/parser.py`), the NASM code generator
(`src/generator/nasm_generator.py`), and the driver (`src/compiler/compiler.py`),
together with theorems settling the specification's claims about them.

Conventions of the embedding:
* Python strings are Lean `String`s; the lexer's character cursor is modelled
  by the list of remaining characters plus the current line/column (Python
  tracks an index into the full string; the two views advance identically).
* Python `int` is Lean `Int`; `None` is `Option.none`.
* Code that can raise (`int(...)` on a bad literal, `SyntaxError` in the
  parser) returns `Except String`.
* Unbounded `while` loops are given a fuel parameter that strictly exceeds
  the number of iterations the Python loop can make on the same input, so the
  fuel-exhaustion branch is unreachable for faithful inputs; it exists only to
  make the definitions structurally recursive and hence executable.
-/

namespace TC

/-- Token kinds, from `TokenType` in `src/lexer/token.py` (all 50 members,
including the CMP/JMP/JE/... kinds that the lexer never produces). -/
inductive TokenType where
  | VAR | LOAD | SET | MOVE
  | ADD | SUB | MUL | DIV
  | INC | DEC
  | AND | OR | XOR | NOT
  | SHL | SHR
  | CMP | JMP | JE | JNE | JG | JL | JGE | JLE
  | FUNC | ENDFUNC | CALL | RET
  | LOOP | ENDLOOP
  | WHILE | ENDWHILE
  | FOR | ENDFOR | FROM | TO | STEP
  | REPEAT | UNTIL
  | IF | ELSE | ENDIF
  | PUSH | POP
  | PRINT | INPUT | HALT | NOP
  | REGISTER | IDENTIFIER | NUMBER | LABEL
  | EQ | NEQ | GT | LT | GTE | LTE
  | COMMA | COLON | NEWLINE | EOF
  deriving DecidableEq, Repr

/-- A token's `value` field is `Any` in Python: a string for identifiers,
registers, labels, keywords and punctuation, a decoded integer for numbers,
and `None` for EOF. -/
inductive TokenValue where
  | str (s : String)
  | num (n : Int)
  | none
  deriving DecidableEq, Repr

/-- The `Token` dataclass of `src/lexer/token.py`. -/
structure Token where
  type : TokenType
  value : TokenValue
  line : Nat
  column : Nat
  deriving DecidableEq, Repr

/-- `KEYWORD_DICT` from `src/lexer/keyword.py`.  Exactly the entries that are
not commented out in the source: the LOOP/ENDLOOP/WHILE/ENDWHILE/FOR/ENDFOR/
FROM/TO/STEP/REPEAT/UNTIL/PUSH/POP lines are commented out there and are
therefore absent here. -/
def KEYWORD_DICT : List (String × TokenType) :=
  [("VAR", .VAR), ("LOAD", .LOAD), ("SET", .SET), ("MOVE", .MOVE),
   ("ADD", .ADD), ("SUB", .SUB), ("MUL", .MUL), ("DIV", .DIV),
   ("AND", .AND), ("OR", .OR), ("XOR", .XOR),
   ("INC", .INC), ("DEC", .DEC), ("NOT", .NOT),
   ("SHL", .SHL), ("SHR", .SHR),
   ("FUNC", .FUNC), ("ENDFUNC", .ENDFUNC), ("CALL", .CALL), ("RET", .RET),
   ("IF", .IF), ("ELSE", .ELSE), ("ENDIF", .ENDIF),
   ("PRINT", .PRINT), ("INPUT", .INPUT), ("HALT", .HALT), ("NOP", .NOP)]

/-- Lexer cursor: remaining characters plus current line and column
(`self.pos`/`self.line`/`self.column` in `Lexer`). -/
structure LexSt where
  rest : List Char
  line : Nat
  col : Nat
  deriving Repr

/-- `Lexer.advance`: consume one character, updating line/column; a no-op at
the end of input. -/
def ladv (st : LexSt) : LexSt :=
  match st.rest with
  | [] => st
  | c :: t => if c = '\n' then ⟨t, st.line + 1, 1⟩ else ⟨t, st.line, st.col + 1⟩

/-- Python's `str.isspace` on the characters this source can contain. -/
def pyIsSpace (c : Char) : Bool :=
  c = ' ' || c = '\t' || c = '\n' || c = '\r' || c = '\x0b' || c = '\x0c'

/-- Worker for `skipWs`, structurally recursive on the remaining characters. -/
def skipWsGo : List Char → Nat → Nat → LexSt
  | [], l, co => ⟨[], l, co⟩
  | c :: t, l, co =>
      if pyIsSpace c && c ≠ '\n' then skipWsGo t l (co + 1) else ⟨c :: t, l, co⟩

/-- `Lexer.skip_whitespace`: skip whitespace other than newline (`advance` is
inlined; the skipped character is never a newline, so only the column moves). -/
def skipWs (st : LexSt) : LexSt := skipWsGo st.rest st.line st.col

/-- Worker for `skipComment`, structurally recursive on the remaining
characters. -/
def skipCommentGo : List Char → Nat → Nat → LexSt
  | [], l, co => ⟨[], l, co⟩
  | c :: t, l, co =>
      if c ≠ '\n' then skipCommentGo t l (co + 1) else ⟨c :: t, l, co⟩

/-- `Lexer.skip_comment`: consume up to (not including) the next newline
(`advance` inlined; the consumed characters are never newlines). -/
def skipComment (st : LexSt) : LexSt := skipCommentGo st.rest st.line st.col

/-- Worker for `takeChars`, structurally recursive on the remaining
characters; `advance`'s two line/column cases are inlined. -/
def takeCharsGo (p : Char → Bool) : List Char → Nat → Nat → List Char × LexSt
  | [], l, co => ([], ⟨[], l, co⟩)
  | c :: t, l, co =>
      if p c then
        match (if c = '\n' then takeCharsGo p t (l + 1) 1 else takeCharsGo p t l (co + 1)) with
        | (cs, st') => (c :: cs, st')
      else ([], ⟨c :: t, l, co⟩)

/-- Consume the longest run of characters satisfying `p`, returning them in
order together with the cursor after them (the digit-collection loops of
`Lexer.read_number` and `Lexer.read_identifier`). -/
def takeChars (p : Char → Bool) (st : LexSt) : List Char × LexSt :=
  takeCharsGo p st.rest st.line st.col

/-- Hex digit set used by `read_number`: `"0123456789abcdefABCDEF"`. -/
def isHexDig (c : Char) : Bool := "0123456789abcdefABCDEF".data.contains c

def hexDigVal (c : Char) : Nat :=
  if '0' ≤ c ∧ c ≤ '9' then c.toNat - '0'.toNat
  else if 'a' ≤ c ∧ c ≤ 'f' then c.toNat - 'a'.toNat + 10
  else if 'A' ≤ c ∧ c ≤ 'F' then c.toNat - 'A'.toNat + 10
  else 0

/-- Value of a digit string in the given base (what Python's `int(s, base)`
computes on a well-formed digit run). -/
def digitsVal (base : Nat) (ds : List Char) : Nat :=
  ds.foldl (fun a c => a * base + hexDigVal c) 0

/-- `Lexer.read_number`.  Faithful including its failure mode: the method
builds `num_str` from an optional leading `-` followed by the digits of the
literal, and for hex/binary literals calls `int(num_str, base)` whenever
`num_str` is non-empty — so a `-` followed by `0x`/`0b` with no digits makes
`int("-", base)` raise `ValueError`; a bare `0x`/`0b` yields 0 (`num_str` is
empty and falsy); a decimal literal always has at least one digit when called
from `tokenize`, and an empty decimal `num_str` likewise raises. -/
def readNumber (st : LexSt) : Except String (Int × LexSt) :=
  let (neg, st1) :=
    if st.rest.head? = some '-' then (true, ladv st) else (false, st)
  match st1.rest with
  | '0' :: c2 :: _ =>
      if c2 = 'x' ∨ c2 = 'X' then
        let (ds, st3) := takeChars isHexDig (ladv (ladv st1))
        if ds.isEmpty then
          if neg then .error "ValueError: invalid literal for int() with base 16"
          else .ok (0, st3)
        else .ok ((if neg then -(digitsVal 16 ds : Int) else (digitsVal 16 ds : Int)), st3)
      else if c2 = 'b' ∨ c2 = 'B' then
        let (ds, st3) := takeChars (fun c => c = '0' || c = '1') (ladv (ladv st1))
        if ds.isEmpty then
          if neg then .error "ValueError: invalid literal for int() with base 2"
          else .ok (0, st3)
        else .ok ((if neg then -(digitsVal 2 ds : Int) else (digitsVal 2 ds : Int)), st3)
      else
        let (ds, st2) := takeChars Char.isDigit st1
        if ds.isEmpty then .error "ValueError: invalid literal for int() with base 10"
        else .ok ((if neg then -(digitsVal 10 ds : Int) else (digitsVal 10 ds : Int)), st2)
  | _ =>
      let (ds, st2) := takeChars Char.isDigit st1
      if ds.isEmpty then .error "ValueError: invalid literal for int() with base 10"
      else .ok ((if neg then -(digitsVal 10 ds : Int) else (digitsVal 10 ds : Int)), st2)

/-- `Lexer.read_identifier`: alphanumerics and underscores. -/
def readIdent (st : LexSt) : List Char × LexSt :=
  takeChars (fun c => c.isAlphanum || c = '_') st

/-- Python's `str.upper()` on the ASCII identifiers this lexer collects
(character-by-character uppercasing). -/
def pyUpper (s : String) : String := String.mk (s.data.map Char.toUpper)

/-- The register names recognised by `tokenize` (case-sensitive). -/
def registerNames : List String :=
  ["R1", "R2", "R3", "R4", "R5", "R6", "R7", "R8"]

/-- The main scanning loop of `Lexer.tokenize` (everything before the final
EOF append).  One recursive call per Python loop iteration; each iteration of
the Python loop consumes at least one character, so fuel
`length + 1` is never exhausted. Returns the tokens plus the final cursor
(whose line/column the EOF token records). -/
def lexLoop : Nat → LexSt → Except String (List Token × LexSt)
  | 0, _ => .error "fuel exhausted"
  | fuel + 1, st =>
    if st.rest.isEmpty then .ok ([], st)
    else
      let st1 := skipWs st
      match st1.rest.head? with
      | none => .ok ([], st1)
      | some c =>
        if c = ';' then lexLoop fuel (skipComment st1)
        else if c = ',' then
          match lexLoop fuel (ladv st1) with
          | .error e => .error e
          | .ok (ts, fin) => .ok (⟨.COMMA, .str ",", st1.line, st1.col⟩ :: ts, fin)
        else if c = '\n' then
          match lexLoop fuel (ladv st1) with
          | .error e => .error e
          | .ok (ts, fin) => .ok (⟨.NEWLINE, .str "\n", st1.line, st1.col⟩ :: ts, fin)
        else if c.isDigit ||
                (c = '-' && (match st1.rest[1]? with
                             | some d => d.isDigit
                             | none => false)) then
          match readNumber st1 with
          | .error e => .error e
          | .ok (n, st2) =>
            match lexLoop fuel st2 with
            | .error e => .error e
            | .ok (ts, fin) => .ok (⟨.NUMBER, .num n, st2.line, st2.col⟩ :: ts, fin)
        else if c.isAlpha || c = '_' then
          let (cs, st2) := readIdent st1
          let id := String.mk cs
          if st2.rest.head? = some ':' then
            match lexLoop fuel (ladv st2) with
            | .error e => .error e
            | .ok (ts, fin) => .ok (⟨.LABEL, .str id, st2.line, st2.col⟩ :: ts, fin)
          else if registerNames.contains id then
            match lexLoop fuel st2 with
            | .error e => .error e
            | .ok (ts, fin) => .ok (⟨.REGISTER, .str id, st2.line, st2.col⟩ :: ts, fin)
          else
            match KEYWORD_DICT.lookup (pyUpper id) with
            | some tt =>
              match lexLoop fuel st2 with
              | .error e => .error e
              | .ok (ts, fin) => .ok (⟨tt, .str id, st2.line, st2.col⟩ :: ts, fin)
            | none =>
              match lexLoop fuel st2 with
              | .error e => .error e
              | .ok (ts, fin) => .ok (⟨.IDENTIFIER, .str id, st2.line, st2.col⟩ :: ts, fin)
        else lexLoop fuel (ladv st1)

/-- `Lexer.tokenize`: run the scanning loop, then append the EOF token
carrying the final line/column.  Raises (returns `.error`) exactly when
`read_number` raises. -/
def tokenize (source : String) : Except String (List Token) :=
  match lexLoop (source.length + 1) ⟨source.data, 1, 1⟩ with
  | .error e => .error e
  | .ok (ts, fin) => .ok (ts ++ [⟨.EOF, .none, fin.line, fin.col⟩])

/-- Projection of a token list to (kind, value) pairs, for stating lexer
facts without pinning down the recorded line/column numbers. -/
def tokensKV (r : Except String (List Token)) : Except String (List (TokenType × TokenValue)) :=
  r.map (List.map fun t => (t.type, t.value))

/-! ## Syntax tree (`src/ast/node.py`)

Operand fields typed `Union[str, int]` in the dataclasses become `SVal`;
`isinstance(x, int)` in the generator corresponds to matching `SVal.i`. -/

/-- A Python value that is either a string (register or identifier name) or
an integer (immediate). -/
inductive SVal where
  | s (v : String)
  | i (n : Int)
  deriving DecidableEq, Repr

/-- The `Condition` dataclass: `left`/`right` are register, identifier or
immediate; `op` is the comparison-operator string (`"=="`, `"!="`, ...). -/
structure Condition where
  left : SVal
  op : String
  right : SVal
  deriving DecidableEq, Repr

/-- The statement dataclasses of `src/ast/node.py`, as one sum type.
`while`/`for`/`if`/`repeat` are Lean keywords, hence the `S` suffix on those
constructor names; the `For` fields `start`/`end`/`step` become
`first`/`last`/`step` (`end` is reserved). -/
inductive Stmt where
  | varDecl (name : String) (value : Option Int)
  | load (dest : String) (src : SVal)
  | set (dest : String) (src : SVal)
  | move (dest : String) (src : SVal)
  | binaryOp (op : String) (dest : String) (left : String) (right : SVal)
  | unaryOp (op : String) (operand : String)
  | shiftOp (op : String) (dest : String) (src : String) (count : Int)
  | label (name : String)
  | func (name : String) (body : List Stmt)
  | call (name : String)
  | ret (value : Option String)
  | loopS (var : String) (limit : Int) (body : List Stmt)
  | whileS (condition : Condition) (body : List Stmt)
  | forS (var : String) (first : Int) (last : Int) (step : Int) (body : List Stmt)
  | repeatS (body : List Stmt) (condition : Condition)
  | ifS (condition : Condition) (thenBody : List Stmt) (elseBody : Option (List Stmt))
  | push (register : String)
  | pop (register : String)
  | print (value : SVal)
  | input (dest : String)
  | halt
  | nop
  | compare (left : String) (right : SVal)
  | jump (op : String) (labelName : String)

/-! ## Parser (`src/parser/parser.py`)

A cursor over the token list.  `current_token` returns `tokens[-1]` once the
position is past the end (the Python list is never empty when the parser is
invoked on lexer output, which always ends in EOF; the default token below is
only reached on an empty list, where Python would raise `IndexError`). -/

structure PSt where
  tokens : List Token
  pos : Nat

def dfltTok : Token := ⟨.EOF, .none, 0, 0⟩

/-- `Parser.current_token`. -/
def curTok (st : PSt) : Token :=
  if st.pos < st.tokens.length then st.tokens.getD st.pos dfltTok
  else st.tokens.getLastD dfltTok

/-- `Parser.advance`. -/
def padv (st : PSt) : PSt := { st with pos := st.pos + 1 }

/-- Printed name of a token kind, as Python's `TokenType.X` repr (used in
`SyntaxError` messages). -/
def ttName (t : TokenType) : String :=
  "TokenType." ++
    (match t with
     | .VAR => "VAR" | .LOAD => "LOAD" | .SET => "SET" | .MOVE => "MOVE"
     | .ADD => "ADD" | .SUB => "SUB" | .MUL => "MUL" | .DIV => "DIV"
     | .INC => "INC" | .DEC => "DEC"
     | .AND => "AND" | .OR => "OR" | .XOR => "XOR" | .NOT => "NOT"
     | .SHL => "SHL" | .SHR => "SHR"
     | .CMP => "CMP" | .JMP => "JMP" | .JE => "JE" | .JNE => "JNE"
     | .JG => "JG" | .JL => "JL" | .JGE => "JGE" | .JLE => "JLE"
     | .FUNC => "FUNC" | .ENDFUNC => "ENDFUNC" | .CALL => "CALL" | .RET => "RET"
     | .LOOP => "LOOP" | .ENDLOOP => "ENDLOOP"
     | .WHILE => "WHILE" | .ENDWHILE => "ENDWHILE"
     | .FOR => "FOR" | .ENDFOR => "ENDFOR" | .FROM => "FROM" | .TO => "TO"
     | .STEP => "STEP" | .REPEAT => "REPEAT" | .UNTIL => "UNTIL"
     | .IF => "IF" | .ELSE => "ELSE" | .ENDIF => "ENDIF"
     | .PUSH => "PUSH" | .POP => "POP"
     | .PRINT => "PRINT" | .INPUT => "INPUT" | .HALT => "HALT" | .NOP => "NOP"
     | .REGISTER => "REGISTER" | .IDENTIFIER => "IDENTIFIER"
     | .NUMBER => "NUMBER" | .LABEL => "LABEL"
     | .EQ => "EQ" | .NEQ => "NEQ" | .GT => "GT" | .LT => "LT"
     | .GTE => "GTE" | .LTE => "LTE"
     | .COMMA => "COMMA" | .COLON => "COLON"
     | .NEWLINE => "NEWLINE" | .EOF => "EOF")

/-- `Parser.expect`: consume the current token if it has the expected kind,
else raise `SyntaxError`. -/
def expect (tt : TokenType) (st : PSt) : Except String (Token × PSt) :=
  let t := curTok st
  if t.type = tt then .ok (t, padv st)
  else .error ("Expected token " ++ ttName tt ++ ", but got " ++ ttName t.type ++
               " at line " ++ Nat.repr t.line ++ ", column " ++ Nat.repr t.column)

/-- One step of `Parser.skip_newlines`, fuelled (the Python loop advances one
token per iteration, and terminates on every token list ending in a
non-NEWLINE token — in particular on all lexer outputs, which end in EOF). -/
def skipNLGo : Nat → PSt → PSt
  | 0, st => st
  | fuel + 1, st =>
      if (curTok st).type = .NEWLINE then skipNLGo fuel (padv st) else st

/-- `Parser.skip_newlines`. -/
def skipNewlines (st : PSt) : PSt := skipNLGo (st.tokens.length + 1) st

/-- The string payload of a token value (`token.value` where the parser reads
a name); numbers and `None` never reach these positions. -/
def valStr : TokenValue → String
  | .str s => s
  | .num n => Int.repr n
  | .none => ""

/-- The integer payload of a token value (`token.value` of a NUMBER token). -/
def valInt : TokenValue → Int
  | .num n => n
  | _ => 0

/-- `Parser.parse_var_decl`: `VAR ident [, NUMBER]`. -/
def parseVarDecl (st : PSt) : Except String (Stmt × PSt) := do
  let (_, st) ← expect .VAR st
  let (nameT, st) ← expect .IDENTIFIER st
  if (curTok st).type = .COMMA then
    let st := padv st
    let (numT, st) ← expect .NUMBER st
    .ok (.varDecl (valStr nameT.value) (some (valInt numT.value)), st)
  else
    .ok (.varDecl (valStr nameT.value) none, st)

/-- `Parser.parse_load`: `LOAD reg , (reg|ident|num)`. -/
def parseLoad (st : PSt) : Except String (Stmt × PSt) := do
  let (_, st) ← expect .LOAD st
  let (destT, st) ← expect .REGISTER st
  let (_, st) ← expect .COMMA st
  let t := curTok st
  if t.type = .REGISTER then
    let (srcT, st) ← expect .REGISTER st
    .ok (.load (valStr destT.value) (.s (valStr srcT.value)), st)
  else if t.type = .IDENTIFIER then
    let (srcT, st) ← expect .IDENTIFIER st
    .ok (.load (valStr destT.value) (.s (valStr srcT.value)), st)
  else if t.type = .NUMBER then
    let (srcT, st) ← expect .NUMBER st
    .ok (.load (valStr destT.value) (.i (valInt srcT.value)), st)
  else
    .error ("Expected register, identifier or number at line " ++ Nat.repr t.line)

/-- `Parser.parse_set`: `SET ident , (reg|num)`. -/
def parseSet (st : PSt) : Except String (Stmt × PSt) := do
  let (_, st) ← expect .SET st
  let (destT, st) ← expect .IDENTIFIER st
  let (_, st) ← expect .COMMA st
  let t := curTok st
  if t.type = .REGISTER then
    let (srcT, st) ← expect .REGISTER st
    .ok (.set (valStr destT.value) (.s (valStr srcT.value)), st)
  else if t.type = .NUMBER then
    let (srcT, st) ← expect .NUMBER st
    .ok (.set (valStr destT.value) (.i (valInt srcT.value)), st)
  else
    .error ("Expected register or number at line " ++ Nat.repr t.line)

/-- `Parser.parse_move`: `MOVE reg , reg`. -/
def parseMove (st : PSt) : Except String (Stmt × PSt) := do
  let (_, st) ← expect .MOVE st
  let (destT, st) ← expect .REGISTER st
  let (_, st) ← expect .COMMA st
  let (srcT, st) ← expect .REGISTER st
  .ok (.move (valStr destT.value) (.s (valStr srcT.value)), st)

/-- `Parser.parse_binary_op`: `OP reg , reg , (reg|num)`; the op string is the
uppercased token spelling. -/
def parseBinaryOp (st : PSt) : Except String (Stmt × PSt) := do
  let op := pyUpper (valStr (curTok st).value)
  let st := padv st
  let (destT, st) ← expect .REGISTER st
  let (_, st) ← expect .COMMA st
  let (leftT, st) ← expect .REGISTER st
  let (_, st) ← expect .COMMA st
  let t := curTok st
  if t.type = .REGISTER then
    let (rT, st) ← expect .REGISTER st
    .ok (.binaryOp op (valStr destT.value) (valStr leftT.value) (.s (valStr rT.value)), st)
  else if t.type = .NUMBER then
    let (rT, st) ← expect .NUMBER st
    .ok (.binaryOp op (valStr destT.value) (valStr leftT.value) (.i (valInt rT.value)), st)
  else
    .error ("Expected register or number at line " ++ Nat.repr t.line)

/-- `Parser.parse_unary_op` (INC/DEC): `OP (reg|ident)`. -/
def parseUnaryOp (st : PSt) : Except String (Stmt × PSt) := do
  let op := pyUpper (valStr (curTok st).value)
  let st := padv st
  let t := curTok st
  if t.type = .REGISTER then
    let (oT, st) ← expect .REGISTER st
    .ok (.unaryOp op (valStr oT.value), st)
  else if t.type = .IDENTIFIER then
    let (oT, st) ← expect .IDENTIFIER st
    .ok (.unaryOp op (valStr oT.value), st)
  else
    .error ("Expected register or identifier at line " ++ Nat.repr t.line)

/-- `Parser.parse_not`: despite the spec's unary `NOT reg`, the source parses
`NOT reg , reg` and builds `BinaryOp("NOT", dest, src, 0)` (its comment:
"NOT is special - it has dest and src"). -/
def parseNot (st : PSt) : Except String (Stmt × PSt) := do
  let (_, st) ← expect .NOT st
  let (destT, st) ← expect .REGISTER st
  let (_, st) ← expect .COMMA st
  let (srcT, st) ← expect .REGISTER st
  .ok (.binaryOp "NOT" (valStr destT.value) (valStr srcT.value) (.i 0), st)

/-- `Parser.parse_shift`: `OP reg , reg , num`. -/
def parseShift (st : PSt) : Except String (Stmt × PSt) := do
  let op := pyUpper (valStr (curTok st).value)
  let st := padv st
  let (destT, st) ← expect .REGISTER st
  let (_, st) ← expect .COMMA st
  let (srcT, st) ← expect .REGISTER st
  let (_, st) ← expect .COMMA st
  let (cT, st) ← expect .NUMBER st
  .ok (.shiftOp op (valStr destT.value) (valStr srcT.value) (valInt cT.value), st)

/-- `Parser.parse_compare`: `CMP (reg|ident) , (reg|num)` (unreachable from
the lexer, which never emits CMP). -/
def parseCompare (st : PSt) : Except String (Stmt × PSt) := do
  let (_, st) ← expect .CMP st
  let t := curTok st
  let (left, st) ←
    if t.type = .REGISTER then do
      let (lT, st) ← expect .REGISTER st
      pure ((valStr lT.value), st)
    else if t.type = .IDENTIFIER then do
      let (lT, st) ← expect .IDENTIFIER st
      pure ((valStr lT.value), st)
    else
      .error ("Expected register or identifier at line " ++ Nat.repr t.line)
  let (_, st) ← expect .COMMA st
  let t := curTok st
  if t.type = .REGISTER then do
    let (rT, st) ← expect .REGISTER st
    .ok (.compare left (.s (valStr rT.value)), st)
  else if t.type = .NUMBER then do
    let (rT, st) ← expect .NUMBER st
    .ok (.compare left (.i (valInt rT.value)), st)
  else
    .error ("Expected register or number at line " ++ Nat.repr t.line)

/-- `Parser.parse_jump` (unreachable from the lexer). -/
def parseJump (st : PSt) : Except String (Stmt × PSt) := do
  let op := pyUpper (valStr (curTok st).value)
  let st := padv st
  let (lT, st) ← expect .IDENTIFIER st
  .ok (.jump op (valStr lT.value), st)

/-- `Parser.parse_label`: a standalone LABEL token. -/
def parseLabel (st : PSt) : Except String (Stmt × PSt) := do
  let (lT, st) ← expect .LABEL st
  .ok (.label (valStr lT.value), st)

/-- `Parser.parse_call`. -/
def parseCall (st : PSt) : Except String (Stmt × PSt) := do
  let (_, st) ← expect .CALL st
  let (nT, st) ← expect .IDENTIFIER st
  .ok (.call (valStr nT.value), st)

/-- `Parser.parse_return`: `RET [reg]`. -/
def parseReturn (st : PSt) : Except String (Stmt × PSt) := do
  let (_, st) ← expect .RET st
  if (curTok st).type = .REGISTER then do
    let (vT, st) ← expect .REGISTER st
    .ok (.ret (some (valStr vT.value)), st)
  else
    .ok (.ret none, st)

/-- `Parser.parse_condition`: `operand cmpop operand`. -/
def parseCondition (st : PSt) : Except String (Condition × PSt) := do
  let t := curTok st
  let (left, st) ←
    if t.type = .REGISTER then do
      let (lT, st) ← expect .REGISTER st
      pure ((SVal.s (valStr lT.value)), st)
    else if t.type = .IDENTIFIER then do
      let (lT, st) ← expect .IDENTIFIER st
      pure ((SVal.s (valStr lT.value)), st)
    else if t.type = .NUMBER then do
      let (lT, st) ← expect .NUMBER st
      pure ((SVal.i (valInt lT.value)), st)
    else
      .error ("Expected register, identifier or number at line " ++ Nat.repr t.line)
  let opT := curTok st
  let (op, st) ←
    if opT.type = .EQ ∨ opT.type = .NEQ ∨ opT.type = .GT ∨ opT.type = .LT ∨
       opT.type = .GTE ∨ opT.type = .LTE then
      pure ((valStr opT.value), padv st)
    else
      .error ("Expected comparison operator at line " ++ Nat.repr opT.line)
  let t := curTok st
  if t.type = .REGISTER then do
    let (rT, st) ← expect .REGISTER st
    .ok (⟨left, op, .s (valStr rT.value)⟩, st)
  else if t.type = .IDENTIFIER then do
    let (rT, st) ← expect .IDENTIFIER st
    .ok (⟨left, op, .s (valStr rT.value)⟩, st)
  else if t.type = .NUMBER then do
    let (rT, st) ← expect .NUMBER st
    .ok (⟨left, op, .i (valInt rT.value)⟩, st)
  else
    .error ("Expected register, identifier or number at line " ++ Nat.repr t.line)

/-- `Parser.parse_push`. -/
def parsePush (st : PSt) : Except String (Stmt × PSt) := do
  let (_, st) ← expect .PUSH st
  let (rT, st) ← expect .REGISTER st
  .ok (.push (valStr rT.value), st)

/-- `Parser.parse_pop`. -/
def parsePop (st : PSt) : Except String (Stmt × PSt) := do
  let (_, st) ← expect .POP st
  let (rT, st) ← expect .REGISTER st
  .ok (.pop (valStr rT.value), st)

/-- `Parser.parse_print`: `PRINT (reg|ident|num)`. -/
def parsePrint (st : PSt) : Except String (Stmt × PSt) := do
  let (_, st) ← expect .PRINT st
  let t := curTok st
  if t.type = .REGISTER then do
    let (vT, st) ← expect .REGISTER st
    .ok (.print (.s (valStr vT.value)), st)
  else if t.type = .IDENTIFIER then do
    let (vT, st) ← expect .IDENTIFIER st
    .ok (.print (.s (valStr vT.value)), st)
  else if t.type = .NUMBER then do
    let (vT, st) ← expect .NUMBER st
    .ok (.print (.i (valInt vT.value)), st)
  else
    .error ("Expected register, identifier or number at line " ++ Nat.repr t.line)

/-- `Parser.parse_input`: `INPUT (reg|ident)`. -/
def parseInput (st : PSt) : Except String (Stmt × PSt) := do
  let (_, st) ← expect .INPUT st
  let t := curTok st
  if t.type = .REGISTER then do
    let (dT, st) ← expect .REGISTER st
    .ok (.input (valStr dT.value), st)
  else if t.type = .IDENTIFIER then do
    let (dT, st) ← expect .IDENTIFIER st
    .ok (.input (valStr dT.value), st)
  else
    .error ("Expected register or identifier at line " ++ Nat.repr t.line)

mutual

/-- `Parser.parse_statement`: dispatch on the leading token's kind.  Returns
`none` for a lone NEWLINE.  The fuel counts parser calls; `parseProgram`
passes more fuel than the recursive descent can consume on its token list
(every statement consumes at least one token). -/
def parseStatement : Nat → PSt → Except String (Option Stmt × PSt)
  | 0, _ => .error "fuel exhausted"
  | fuel + 1, st0 =>
    let st := skipNewlines st0
    let t := curTok st
    match t.type with
    | .VAR => do let (s, st) ← parseVarDecl st; .ok (some s, st)
    | .LOAD => do let (s, st) ← parseLoad st; .ok (some s, st)
    | .SET => do let (s, st) ← parseSet st; .ok (some s, st)
    | .MOVE => do let (s, st) ← parseMove st; .ok (some s, st)
    | .ADD => do let (s, st) ← parseBinaryOp st; .ok (some s, st)
    | .SUB => do let (s, st) ← parseBinaryOp st; .ok (some s, st)
    | .MUL => do let (s, st) ← parseBinaryOp st; .ok (some s, st)
    | .DIV => do let (s, st) ← parseBinaryOp st; .ok (some s, st)
    | .AND => do let (s, st) ← parseBinaryOp st; .ok (some s, st)
    | .OR => do let (s, st) ← parseBinaryOp st; .ok (some s, st)
    | .XOR => do let (s, st) ← parseBinaryOp st; .ok (some s, st)
    | .INC => do let (s, st) ← parseUnaryOp st; .ok (some s, st)
    | .DEC => do let (s, st) ← parseUnaryOp st; .ok (some s, st)
    | .NOT => do let (s, st) ← parseNot st; .ok (some s, st)
    | .SHL => do let (s, st) ← parseShift st; .ok (some s, st)
    | .SHR => do let (s, st) ← parseShift st; .ok (some s, st)
    | .CMP => do let (s, st) ← parseCompare st; .ok (some s, st)
    | .JMP => do let (s, st) ← parseJump st; .ok (some s, st)
    | .JE => do let (s, st) ← parseJump st; .ok (some s, st)
    | .JNE => do let (s, st) ← parseJump st; .ok (some s, st)
    | .JG => do let (s, st) ← parseJump st; .ok (some s, st)
    | .JL => do let (s, st) ← parseJump st; .ok (some s, st)
    | .JGE => do let (s, st) ← parseJump st; .ok (some s, st)
    | .JLE => do let (s, st) ← parseJump st; .ok (some s, st)
    | .LABEL => do let (s, st) ← parseLabel st; .ok (some s, st)
    | .FUNC => do let (s, st) ← parseFunction fuel st; .ok (some s, st)
    | .CALL => do let (s, st) ← parseCall st; .ok (some s, st)
    | .RET => do let (s, st) ← parseReturn st; .ok (some s, st)
    | .LOOP => do let (s, st) ← parseLoop fuel st; .ok (some s, st)
    | .WHILE => do let (s, st) ← parseWhile fuel st; .ok (some s, st)
    | .FOR => do let (s, st) ← parseFor fuel st; .ok (some s, st)
    | .REPEAT => do let (s, st) ← parseRepeat fuel st; .ok (some s, st)
    | .IF => do let (s, st) ← parseIf fuel st; .ok (some s, st)
    | .PUSH => do let (s, st) ← parsePush st; .ok (some s, st)
    | .POP => do let (s, st) ← parsePop st; .ok (some s, st)
    | .PRINT => do let (s, st) ← parsePrint st; .ok (some s, st)
    | .INPUT => do let (s, st) ← parseInput st; .ok (some s, st)
    | .HALT => .ok (some .halt, padv st)
    | .NOP => .ok (some .nop, padv st)
    | .NEWLINE => .ok (none, padv st)
    | _ => .error ("Unexpected token " ++ ttName t.type ++ " at line " ++ Nat.repr t.line)

/-- The block-body loop shared by every structured construct: parse
statements (skipping newlines after each) until the current token's kind is a
terminator. -/
def parseBody : Nat → List TokenType → PSt → Except String (List Stmt × PSt)
  | 0, _, _ => .error "fuel exhausted"
  | fuel + 1, stops, st =>
    if stops.contains (curTok st).type then .ok ([], st)
    else do
      let (s?, st) ← parseStatement fuel st
      let st := skipNewlines st
      let (rest, st) ← parseBody fuel stops st
      .ok ((match s? with | some s => [s] | none => []) ++ rest, st)

/-- `Parser.parse_function`: `FUNC ident NL body ENDFUNC`. -/
def parseFunction : Nat → PSt → Except String (Stmt × PSt)
  | 0, _ => .error "fuel exhausted"
  | fuel + 1, st => do
    let (_, st) ← expect .FUNC st
    let (nT, st) ← expect .IDENTIFIER st
    let st := skipNewlines st
    let (body, st) ← parseBody fuel [.ENDFUNC] st
    let (_, st) ← expect .ENDFUNC st
    .ok (.func (valStr nT.value) body, st)

/-- `Parser.parse_loop`: `LOOP ident , num NL body ENDLOOP`. -/
def parseLoop : Nat → PSt → Except String (Stmt × PSt)
  | 0, _ => .error "fuel exhausted"
  | fuel + 1, st => do
    let (_, st) ← expect .LOOP st
    let (vT, st) ← expect .IDENTIFIER st
    let (_, st) ← expect .COMMA st
    let (lT, st) ← expect .NUMBER st
    let st := skipNewlines st
    let (body, st) ← parseBody fuel [.ENDLOOP] st
    let (_, st) ← expect .ENDLOOP st
    .ok (.loopS (valStr vT.value) (valInt lT.value) body, st)

/-- `Parser.parse_while`: `WHILE cond NL body ENDWHILE`. -/
def parseWhile : Nat → PSt → Except String (Stmt × PSt)
  | 0, _ => .error "fuel exhausted"
  | fuel + 1, st => do
    let (_, st) ← expect .WHILE st
    let (cond, st) ← parseCondition st
    let st := skipNewlines st
    let (body, st) ← parseBody fuel [.ENDWHILE] st
    let (_, st) ← expect .ENDWHILE st
    .ok (.whileS cond body, st)

/-- `Parser.parse_for`: `FOR ident FROM num TO num [STEP num] NL body ENDFOR`. -/
def parseFor : Nat → PSt → Except String (Stmt × PSt)
  | 0, _ => .error "fuel exhausted"
  | fuel + 1, st => do
    let (_, st) ← expect .FOR st
    let (vT, st) ← expect .IDENTIFIER st
    let (_, st) ← expect .FROM st
    let (sT, st) ← expect .NUMBER st
    let (_, st) ← expect .TO st
    let (eT, st) ← expect .NUMBER st
    let (step, st) ←
      if (curTok st).type = .STEP then do
        let st := padv st
        let (stepT, st) ← expect .NUMBER st
        pure ((valInt stepT.value), st)
      else pure ((1 : Int), st)
    let st := skipNewlines st
    let (body, st) ← parseBody fuel [.ENDFOR] st
    let (_, st) ← expect .ENDFOR st
    .ok (.forS (valStr vT.value) (valInt sT.value) (valInt eT.value) step body, st)

/-- `Parser.parse_repeat`: `REPEAT NL body UNTIL cond`. -/
def parseRepeat : Nat → PSt → Except String (Stmt × PSt)
  | 0, _ => .error "fuel exhausted"
  | fuel + 1, st => do
    let (_, st) ← expect .REPEAT st
    let st := skipNewlines st
    let (body, st) ← parseBody fuel [.UNTIL] st
    let (_, st) ← expect .UNTIL st
    let (cond, st) ← parseCondition st
    .ok (.repeatS body cond, st)

/-- `Parser.parse_if`: `IF cond NL then [ELSE NL else] ENDIF`. -/
def parseIf : Nat → PSt → Except String (Stmt × PSt)
  | 0, _ => .error "fuel exhausted"
  | fuel + 1, st => do
    let (_, st) ← expect .IF st
    let (cond, st) ← parseCondition st
    let st := skipNewlines st
    let (thenBody, st) ← parseBody fuel [.ELSE, .ENDIF] st
    let (elseBody, st) ←
      if (curTok st).type = .ELSE then do
        let st := skipNewlines (padv st)
        let (eb, st) ← parseBody fuel [.ENDIF] st
        pure ((some eb), st)
      else pure ((none : Option (List Stmt)), st)
    let (_, st) ← expect .ENDIF st
    .ok (.ifS cond thenBody elseBody, st)

end

/-- `Parser.parse`: the top-level statement loop (same shape as the block
loop, with EOF as the terminator).  The program is the statement list. -/
def parseProgram (tokens : List Token) : Except String (List Stmt) :=
  match parseBody (2 * tokens.length + 8) [.EOF] ⟨tokens, 0⟩ with
  | .error e => .error e
  | .ok (l, _) => .ok l

/-- Lex then parse a source string. -/
def parseSrc (source : String) : Except String (List Stmt) :=
  match tokenize source with
  | .error e => .error e
  | .ok ts => parseProgram ts

/-! ## Code generator (`src/generator/nasm_generator.py`) -/

/-- `NasmGenerator.REGISTER_MAP`. -/
def REGISTER_MAP : List (String × String) :=
  [("R1", "rax"), ("R2", "rbx"), ("R3", "rcx"), ("R4", "rdx"),
   ("R5", "rsi"), ("R6", "rdi"), ("R7", "r8"), ("R8", "r9")]

/-- `NasmGenerator.get_register`: map a virtual register to its physical
name; unknown names pass through unchanged. -/
def getRegister (r : String) : String := (REGISTER_MAP.lookup r).getD r

/-- `NasmGenerator.is_register`. -/
def isRegister (r : String) : Bool := (REGISTER_MAP.lookup r).isSome

/-- The generator's mutable state: the three accumulating sections, the label
counter, the declared-variables set (`self.variables`, a `dict` in Python; only
membership and insertion are used, so a list of names), the two helper flags, and the deferred-function queue
(the queue holds `Function` nodes; we record their name and body). -/
structure GenState where
  data : List String
  bss : List String
  text : List String
  labelCounter : Nat
  vars : List String
  needsPrint : Bool
  needsRead : Bool
  functions : List (String × List Stmt)

/-- `NasmGenerator.emit` (with the default 4-space indent). -/
def emitT (l : String) (st : GenState) : GenState :=
  { st with text := st.text ++ ["    " ++ l] }

/-- A raw `text_section.append` (used for blank separator lines and `nop`). -/
def emitRaw (l : String) (st : GenState) : GenState :=
  { st with text := st.text ++ [l] }

/-- `NasmGenerator.emit_label`. -/
def emitLabelT (l : String) (st : GenState) : GenState :=
  { st with text := st.text ++ [l ++ ":"] }

/-- `NasmGenerator.emit_data`. -/
def emitD (l : String) (st : GenState) : GenState :=
  { st with data := st.data ++ ["    " ++ l] }

/-- `NasmGenerator.emit_bss`. -/
def emitB (l : String) (st : GenState) : GenState :=
  { st with bss := st.bss ++ ["    " ++ l] }

/-- Operand text for a condition side or a loaded value: immediates print
directly, registers map, anything else is a memory reference `[name]`
(the common `isinstance(int) / is_register / else` cascade). -/
def operandTxt : SVal → String
  | .i n => Int.repr n
  | .s r => if isRegister r then getRegister r else "[" ++ (r ++ "]")

/-- `NasmGenerator.generate_condition`: load left into r10, right into r11,
compare, and jump to `falseLabel` on the inverted comparison. -/
def genCondition (c : Condition) (falseLabel : String) (st : GenState) : GenState :=
  let st := emitT ("mov r10, " ++ operandTxt c.left) st
  let st := emitT ("mov r11, " ++ operandTxt c.right) st
  let st := emitT "cmp r10, r11" st
  if c.op = "==" then emitT ("jne " ++ falseLabel) st
  else if c.op = "!=" then emitT ("je " ++ falseLabel) st
  else if c.op = ">" then emitT ("jle " ++ falseLabel) st
  else if c.op = "<" then emitT ("jge " ++ falseLabel) st
  else if c.op = ">=" then emitT ("jl " ++ falseLabel) st
  else if c.op = "<=" then emitT ("jg " ++ falseLabel) st
  else st

/-- `NasmGenerator._load_value_to_r15` (used by PRINT). -/
def loadValueToR15 (v : SVal) (st : GenState) : GenState :=
  emitT ("mov r15, " ++ operandTxt v) st

mutual

/-- `NasmGenerator.generate_statement`.  `Function` nodes are queued, not
emitted; `Label`, `Push`, `Pop`, `Compare` and `Jump` nodes have no
`isinstance` case in the dispatch and are silently ignored. -/
def genStmt : Stmt → GenState → GenState
  | .func n b, st => { st with functions := st.functions ++ [(n, b)] }
  | .varDecl n v, st =>
      let st := { st with vars := st.vars ++ [n] }
      match v with
      | some i => emitD (n ++ (" dq " ++ Int.repr i)) st
      | none => emitB (n ++ " resq 1") st
  | .load d s, st =>
      let dest := getRegister d
      (match s with
       | .i n => emitT ("mov " ++ (dest ++ (", " ++ Int.repr n))) st
       | .s r =>
           if isRegister r then emitT ("mov " ++ (dest ++ (", " ++ getRegister r))) st
           else emitT ("mov " ++ (dest ++ (", [" ++ (r ++ "]")))) st)
  | .set d s, st =>
      (match s with
       | .i n => emitT ("mov qword [" ++ (d ++ ("], " ++ Int.repr n))) st
       | .s r => emitT ("mov qword [" ++ (d ++ ("], " ++ getRegister r))) st)
  | .move d s, st =>
      let dest := getRegister d
      (match s with
       | .s r =>
           if isRegister r then emitT ("mov " ++ (dest ++ (", " ++ getRegister r))) st
           else
             let st := emitT ("mov r10, [" ++ (r ++ "]")) st
             emitT ("mov " ++ (dest ++ ", r10")) st
       | .i n =>
           let st := emitT ("mov r10, " ++ Int.repr n) st
           emitT ("mov " ++ (dest ++ ", r10")) st)
  | .print v, st =>
      let st := { st with needsPrint := true }
      let st := loadValueToR15 v st
      emitT "call print_int" st
  | .input d, st =>
      let st := { st with needsRead := true }
      let st := emitT "call read_int" st
      if isRegister d then emitT ("mov " ++ (getRegister d ++ ", r15")) st
      else emitT ("mov [" ++ (d ++ "], r15")) st
  | .binaryOp op d l r, st =>
      let dest := getRegister d
      let left := getRegister l
      let rightOperand :=
        match r with
        | .i n => Int.repr n
        | .s v => if isRegister v then getRegister v else "[" ++ (v ++ "]")
      if op = "DIV" then
        let st := if dest ≠ "rdx" then emitT "push rdx" st else st
        let st := if dest ≠ "rax" then emitT "push rax" st else st
        let st := if left ≠ "rax" then emitT ("mov rax, " ++ left) st else st
        let st := emitT "xor rdx, rdx" st
        let st :=
          match r with
          | .i n =>
              let st := emitT "push r10" st
              let st := emitT ("mov r10, " ++ Int.repr n) st
              let st := emitT "div r10" st
              emitT "pop r10" st
          | .s _ => emitT ("div " ++ rightOperand) st
        let st := if dest ≠ "rax" then emitT ("mov " ++ (dest ++ ", rax")) st else st
        let st := if dest ≠ "rax" then emitT "pop rax" st else st
        if dest ≠ "rdx" then emitT "pop rdx" st else st
      else
        let st := if dest ≠ left then emitT ("mov " ++ (dest ++ (", " ++ left))) st else st
        if op = "ADD" then emitT ("add " ++ (dest ++ (", " ++ rightOperand))) st
        else if op = "SUB" then emitT ("sub " ++ (dest ++ (", " ++ rightOperand))) st
        else if op = "MUL" then emitT ("imul " ++ (dest ++ (", " ++ rightOperand))) st
        else if op = "AND" then emitT ("and " ++ (dest ++ (", " ++ rightOperand))) st
        else if op = "OR" then emitT ("or " ++ (dest ++ (", " ++ rightOperand))) st
        else if op = "XOR" then emitT ("xor " ++ (dest ++ (", " ++ rightOperand))) st
        else st
  | .unaryOp op o, st =>
      let operand := getRegister o
      if op = "INC" then emitT ("inc " ++ operand) st
      else if op = "DEC" then emitT ("dec " ++ operand) st
      else if op = "NOT" then emitT ("not " ++ operand) st
      else st
  | .shiftOp op d s c, st =>
      let dest := getRegister d
      let src := getRegister s
      let st := if dest ≠ src then emitT ("mov " ++ (dest ++ (", " ++ src))) st else st
      if op = "SHL" then emitT ("shl " ++ (dest ++ (", " ++ Int.repr c))) st
      else if op = "SHR" then emitT ("shr " ++ (dest ++ (", " ++ Int.repr c))) st
      else st
  | .halt, st =>
      let st := emitT "mov rax, 60" st
      let st := emitT "mov rdi, 0" st
      emitT "syscall" st
  | .nop, st => emitRaw "    nop" st
  | .call n, st => emitT ("call " ++ n) st
  | .ret v, st =>
      let st :=
        match v with
        | some r => if isRegister r then emitT ("mov rax, " ++ getRegister r) st else st
        | none => st
      emitT "ret" st
  | .ifS c thenBody elseBody, st =>
      let elseLabel := "else_" ++ Nat.repr st.labelCounter
      let endifLabel := "endif_" ++ Nat.repr st.labelCounter
      let st := { st with labelCounter := st.labelCounter + 1 }
      let st := genCondition c elseLabel st
      let st := genStmts thenBody st
      (match elseBody with
       | some es =>
           let st := emitT ("jmp " ++ endifLabel) st
           let st := emitLabelT elseLabel st
           let st := genStmts es st
           emitLabelT endifLabel st
       | none => emitLabelT elseLabel st)
  | .loopS v limit body, st =>
      let startLabel := "loop_start_" ++ Nat.repr st.labelCounter
      let endLabel := "loop_end_" ++ Nat.repr st.labelCounter
      let st := { st with labelCounter := st.labelCounter + 1 }
      let st := emitT ("mov qword [" ++ (v ++ "], 0")) st
      let st := emitLabelT startLabel st
      let st := emitT ("mov r10, [" ++ (v ++ "]")) st
      let st := emitT ("mov r11, " ++ Int.repr limit) st
      let st := emitT "cmp r10, r11" st
      let st := emitT ("jge " ++ endLabel) st
      let st := genStmts body st
      let st := emitT ("inc qword [" ++ (v ++ "]")) st
      let st := emitT ("jmp " ++ startLabel) st
      emitLabelT endLabel st
  | .whileS c body, st =>
      let startLabel := "while_start_" ++ Nat.repr st.labelCounter
      let endLabel := "while_end_" ++ Nat.repr st.labelCounter
      let st := { st with labelCounter := st.labelCounter + 1 }
      let st := emitLabelT startLabel st
      let st := genCondition c endLabel st
      let st := genStmts body st
      let st := emitT ("jmp " ++ startLabel) st
      emitLabelT endLabel st
  | .forS v first last step body, st =>
      let st :=
        if st.vars.contains v then st
        else emitB (v ++ " resq 1") { st with vars := st.vars ++ [v] }
      let startLabel := "for_start_" ++ Nat.repr st.labelCounter
      let endLabel := "for_end_" ++ Nat.repr st.labelCounter
      let st := { st with labelCounter := st.labelCounter + 1 }
      let st := emitT ("mov qword [" ++ (v ++ ("], " ++ Int.repr first))) st
      let st := emitLabelT startLabel st
      let st := emitT ("mov r10, [" ++ (v ++ "]")) st
      let st := emitT ("mov r11, " ++ Int.repr last) st
      let st := emitT "cmp r10, r11" st
      let st := emitT ("jg " ++ endLabel) st
      let st := genStmts body st
      let st :=
        if step = 1 then emitT ("inc qword [" ++ (v ++ "]")) st
        else emitT ("add qword [" ++ (v ++ ("], " ++ Int.repr step))) st
      let st := emitT ("jmp " ++ startLabel) st
      emitLabelT endLabel st
  | .repeatS body c, st =>
      let startLabel := "repeat_start_" ++ Nat.repr st.labelCounter
      let st := { st with labelCounter := st.labelCounter + 1 }
      let st := emitLabelT startLabel st
      let st := genStmts body st
      genCondition c startLabel st
  | .label _, st => st
  | .push _, st => st
  | .pop _, st => st
  | .compare _ _, st => st
  | .jump _ _, st => st

/-- The statement loops (`for stmt in ...: generate_statement(stmt)`). -/
def genStmts : List Stmt → GenState → GenState
  | [], st => st
  | s :: rest, st => genStmts rest (genStmt s st)

end

/-- `NasmGenerator.generate_function`: emit the function's label then its
body. -/
def genFunction (f : String × List Stmt) (st : GenState) : GenState :=
  genStmts f.2 (emitLabelT f.1 st)

mutual

/-- Weight of a statement: one plus the weight of its nested bodies (used to
bound the function-queue loop). -/
def wStmt : Stmt → Nat
  | .func _ b => 1 + wList b
  | .ifS _ tb eb => 1 + wList tb + (match eb with | some l => wList l | none => 0)
  | .loopS _ _ b => 1 + wList b
  | .whileS _ b => 1 + wList b
  | .forS _ _ _ _ b => 1 + wList b
  | .repeatS b _ => 1 + wList b
  | _ => 1

def wList : List Stmt → Nat
  | [] => 0
  | s :: t => wStmt s + wList t

end

/-- Weight of a queued function, for bounding the function-queue loop. -/
def wPair (f : String × List Stmt) : Nat := 1 + wList f.2

/-- Remaining weight of the queue from position `i` on. -/
def queueWeight (st : GenState) (i : Nat) : Nat :=
  ((st.functions.drop i).map wPair).sum

/-- The function-emission loop of `_generate_program_body`:
`for func in self.functions: self.generate_function(func)` — Python iterates
by index while `generate_function` may append newly encountered nested
functions, so the loop also reaches those.  Each processed function is
replaced in the remaining queue by the functions nested in its body, whose
total weight is strictly smaller, so fuel exceeding the current queue weight
is never exhausted. -/
def drainFns : Nat → GenState → Nat → GenState
  | 0, st, _ => st
  | fuel + 1, st, i =>
      if h : i < st.functions.length then
        drainFns fuel (genFunction st.functions[i] st) (i + 1)
      else st

/-- `NasmGenerator._initialize_sections`. -/
def initState : GenState :=
  let st : GenState := ⟨["section .data"], ["section .bss"], ["section .text"],
                        0, [], false, false, []⟩
  let st := emitT "global _start" st
  let st := emitRaw "" st
  let st := emitLabelT "_start" st
  emitT "jmp main_code" st

/-- `NasmGenerator._add_io_buffers`. -/
def addIoBuffers (st : GenState) : GenState :=
  let st :=
    if st.needsPrint then
      emitD "digit_buffer times 20 db 0" (emitD "newline db 10" st)
    else st
  if st.needsRead then emitD "input_buffer times 32 db 0" st else st

/-- `NasmGenerator._add_exit_code`. -/
def addExitCode (st : GenState) : GenState :=
  emitT "syscall" (emitT "mov rdi, 0" (emitT "mov rax, 60" st))

/-- The lines appended to the text section by
`NasmGenerator._add_print_int_function`, in order. -/
def printIntLines : List String :=
  ["",
   "print_int:",
   "    push rax",
   "    push rbx",
   "    push rcx",
   "    push rdx",
   "    push rsi",
   "    push rdi",
   "    push r11",
   "",
   "    mov r10, r15",
   "",
   "    mov r11, 10",
   "    lea r12, [digit_buffer + 19]",
   "    mov byte [r12], 0",
   "    dec r12",
   "    xor r13, r13  ; sign flag",
   "",
   "    test r10, r10",
   "    jns .positive",
   "    neg r10",
   "    mov r13, 1",
   "",
   ".positive:",
   "    mov rax, r10",
   "    xor rdx, rdx",
   "    div r11",
   "    mov r10, rax  ; quotient back to r10",
   "    add dl, \x270\x27",
   "    mov [r12], dl",
   "    dec r12",
   "    test r10, r10",
   "    jnz .positive",
   "",
   "    test r13, r13",
   "    jz .print",
   "    mov byte [r12], \x27-\x27",
   "    dec r12",
   "",
   ".print:",
   "    inc r12  ; r12 = start of string",
   "    mov rdx, digit_buffer + 19",
   "    sub rdx, r12  ; rdx = length",
   "    mov rsi, r12  ; rsi = buffer pointer",
   "    mov rax, 1",
   "    mov rdi, 1",
   "    syscall",
   "",
   "    mov rax, 1",
   "    mov rdi, 1",
   "    lea rsi, [newline]",
   "    mov rdx, 1",
   "    syscall",
   "",
   "    pop r11",
   "    pop rdi",
   "    pop rsi",
   "    pop rdx",
   "    pop rcx",
   "    pop rbx",
   "    pop rax",
   "",
   "    ret"]

/-- The lines appended to the text section by
`NasmGenerator._add_read_int_function`, in order. -/
def readIntLines : List String :=
  ["",
   "read_int:",
   "    mov rax, 0",
   "    mov rdi, 0",
   "    lea rsi, [input_buffer]",
   "    mov rdx, 32",
   "    syscall",
   "",
   "    lea r12, [input_buffer]",
   "    xor r10, r10  ; result = 0",
   "    xor r13, r13  ; sign flag = 0",
   "    mov r11, 10",
   "",
   "    movzx r14, byte [r12]",
   "    cmp r14b, \x27-\x27",
   "    jne .parse_loop",
   "    mov r13, 1  ; set sign flag",
   "    inc r12",
   "",
   ".parse_loop:",
   "    movzx r14, byte [r12]",
   "    cmp r14b, \x270\x27",
   "    jb .done",
   "    cmp r14b, \x279\x27",
   "    ja .done",
   "    sub r14b, \x270\x27",
   "    imul r10, r11  ; result *= 10",
   "    add r10, r14   ; result += digit",
   "    inc r12",
   "    jmp .parse_loop",
   "",
   ".done:",
   "    mov r15, r10",
   "    test r13, r13",
   "    jz .return",
   "    neg r15",
   "",
   ".return:",
   "    ret"]

/-- `NasmGenerator._add_helper_functions`. -/
def addHelperFunctions (st : GenState) : GenState :=
  let st := if st.needsPrint then { st with text := st.text ++ printIntLines } else st
  if st.needsRead then { st with text := st.text ++ readIntLines } else st

/-- `NasmGenerator.generate`: initialise sections, emit the `main_code` label
and the program body, drain the function queue, then finalise (I/O buffers,
exit syscall, helper functions). -/
def generate (prog : List Stmt) : GenState :=
  let st := initState
  let st := emitLabelT "main_code" st
  let st := genStmts prog st
  let st := drainFns (queueWeight st 0 + 1) st 0
  let st := addIoBuffers st
  let st := addExitCode st
  addHelperFunctions st

/-- `NasmGenerator._build_output`: the output line list — data and bss
sections are included (followed by a blank line) only when they hold more
than their header. -/
def outputLines (st : GenState) : List String :=
  (if st.data.length > 1 then st.data ++ [""] else []) ++
  (if st.bss.length > 1 then st.bss ++ [""] else []) ++
  st.text

/-- The returned NASM string: `"\n".join(output)`. -/
def nasmText (st : GenState) : String :=
  String.intercalate "\n" (outputLines st)

/-! ## Driver (`src/compiler/compiler.py`) -/

/-- `compile_tc_to_nasm`.  The `debug` flag models the `DEBUG` environment
variable: in the source it only causes the token stream and tree to be
printed and has no effect on the computed result. -/
def compileTcToNasm (debug : Bool) (source : String) : Except String String :=
  let _diagnosticsRequested := debug
  match tokenize source with
  | .error e => .error e
  | .ok tokens =>
    match parseProgram tokens with
    | .error e => .error e
    | .ok prog => .ok (nasmText (generate prog))

/-- Compile to the output line list (the same pipeline as `compileTcToNasm`,
stopping before the final `"\n".join`). -/
def compileLines (source : String) : Except String (List String) :=
  match tokenize source with
  | .error e => .error e
  | .ok tokens =>
    match parseProgram tokens with
    | .error e => .error e
    | .ok prog => .ok (outputLines (generate prog))

/-! ## Structural predicates on programs, used to state the claims -/

mutual

/-- Does the statement contain a `Print` anywhere, including inside function
bodies and nested block bodies? -/
def hasPrint : Stmt → Bool
  | .print _ => true
  | .func _ b => hasPrintL b
  | .ifS _ tb eb => hasPrintL tb || (match eb with | some l => hasPrintL l | none => false)
  | .loopS _ _ b => hasPrintL b
  | .whileS _ b => hasPrintL b
  | .forS _ _ _ _ b => hasPrintL b
  | .repeatS b _ => hasPrintL b
  | _ => false

def hasPrintL : List Stmt → Bool
  | [] => false
  | s :: t => hasPrint s || hasPrintL t

end

mutual

/-- Does the statement contain an `Input` anywhere? -/
def hasInput : Stmt → Bool
  | .input _ => true
  | .func _ b => hasInputL b
  | .ifS _ tb eb => hasInputL tb || (match eb with | some l => hasInputL l | none => false)
  | .loopS _ _ b => hasInputL b
  | .whileS _ b => hasInputL b
  | .forS _ _ _ _ b => hasInputL b
  | .repeatS b _ => hasInputL b
  | _ => false

def hasInputL : List Stmt → Bool
  | [] => false
  | s :: t => hasInput s || hasInputL t

end

mutual

/-- Does the statement contain a `Print` outside any nested `Function`
subtree?  (`generate_statement` sets `needs_print_int` for exactly these
occurrences; prints inside queued functions are seen when the queue is
drained.) -/
def cpOut : Stmt → Bool
  | .print _ => true
  | .func _ _ => false
  | .ifS _ tb eb => cpOutL tb || (match eb with | some l => cpOutL l | none => false)
  | .loopS _ _ b => cpOutL b
  | .whileS _ b => cpOutL b
  | .forS _ _ _ _ b => cpOutL b
  | .repeatS b _ => cpOutL b
  | _ => false

def cpOutL : List Stmt → Bool
  | [] => false
  | s :: t => cpOut s || cpOutL t

end

mutual

/-- An `Input` outside any nested `Function` subtree. -/
def ciOut : Stmt → Bool
  | .input _ => true
  | .func _ _ => false
  | .ifS _ tb eb => ciOutL tb || (match eb with | some l => ciOutL l | none => false)
  | .loopS _ _ b => ciOutL b
  | .whileS _ b => ciOutL b
  | .forS _ _ _ _ b => ciOutL b
  | .repeatS b _ => ciOutL b
  | _ => false

def ciOutL : List Stmt → Bool
  | [] => false
  | s :: t => ciOut s || ciOutL t

end

mutual

/-- The `Function` nodes that `generate_statement` queues while processing a
statement, in queue order: the maximal function subtrees not nested inside
another function. -/
def fnsOf : Stmt → List (String × List Stmt)
  | .func n b => [(n, b)]
  | .ifS _ tb eb => fnsOfL tb ++ (match eb with | some l => fnsOfL l | none => [])
  | .loopS _ _ b => fnsOfL b
  | .whileS _ b => fnsOfL b
  | .forS _ _ _ _ b => fnsOfL b
  | .repeatS b _ => fnsOfL b
  | _ => []

def fnsOfL : List Stmt → List (String × List Stmt)
  | [] => []
  | s :: t => fnsOf s ++ fnsOfL t

end

mutual

/-- No function at any nesting depth is named `_start`. -/
def noStart : Stmt → Bool
  | .func n b => (n ≠ "_start") && noStartL b
  | .ifS _ tb eb => noStartL tb && (match eb with | some l => noStartL l | none => true)
  | .loopS _ _ b => noStartL b
  | .whileS _ b => noStartL b
  | .forS _ _ _ _ b => noStartL b
  | .repeatS b _ => noStartL b
  | _ => true

def noStartL : List Stmt → Bool
  | [] => true
  | s :: t => noStart s && noStartL t

end

/-- Total weight of a function queue. -/
def wSum (fns : List (String × List Stmt)) : Nat := (fns.map wPair).sum

/-! ## Distinguished output lines

`sentP`/`sentR` are lines of the `print_int`/`read_int` helper bodies that no
statement lowering can emit; `glineS`/`slineS` are the `global _start`
directive line and the `_start:` label line. -/

def sentP : String := "    jns .positive"

def sentR : String := "    movzx r14, byte [r12]"

def glineS : String := "    global _start"

def slineS : String := "_start:"

/-- A line that is none of the four distinguished lines. -/
def okLine (l : String) : Prop :=
  l ≠ sentP ∧ l ≠ sentR ∧ l ≠ glineS ∧ l ≠ slineS

/-- A line that is neither helper sentinel (function labels may be `_start:`,
so only this weaker property holds for them in general). -/
def okS (l : String) : Prop := l ≠ sentP ∧ l ≠ sentR

instance (l : String) : Decidable (okLine l) := by unfold okLine; infer_instance

instance (l : String) : Decidable (okS l) := by unfold okS; infer_instance

/-- `st'` extends `st` by appending, to each of the three sections, only
lines satisfying `P`. -/
def ExtendsP (P : String → Prop) (st st' : GenState) : Prop :=
  ∃ dd db dt,
    st'.data = st.data ++ dd ∧ st'.bss = st.bss ++ db ∧ st'.text = st.text ++ dt ∧
    (∀ l ∈ dd, P l) ∧ (∀ l ∈ db, P l) ∧ (∀ l ∈ dt, P l)

/-! ## The DIV protocol of claim C6

`divProtocolClaim` renders, word for word, the instruction sequence the
spec's DIV contract describes (save rdx/rax unless they are the destination;
left into rax; clear rdx; divide — an immediate right operand through r10;
quotient to the destination; restore in reverse order).  `divProtocolAmended`
is the same sequence except that r10 is saved around the immediate division,
which is what `generate_binary_op` actually emits. -/

def divProtocolClaim (d l : String) (r : SVal) : List String :=
  let dest := getRegister d
  let left := getRegister l
  (if dest ≠ "rdx" then ["    push rdx"] else []) ++
  (if dest ≠ "rax" then ["    push rax"] else []) ++
  (if left ≠ "rax" then ["    mov rax, " ++ left] else []) ++
  ["    xor rdx, rdx"] ++
  (match r with
   | .i n => ["    mov r10, " ++ Int.repr n, "    div r10"]
   | .s v => ["    div " ++ (if isRegister v then getRegister v else "[" ++ (v ++ "]"))]) ++
  (if dest ≠ "rax" then ["    mov " ++ (dest ++ ", rax")] else []) ++
  (if dest ≠ "rax" then ["    pop rax"] else []) ++
  (if dest ≠ "rdx" then ["    pop rdx"] else [])

def divProtocolAmended (d l : String) (r : SVal) : List String :=
  let dest := getRegister d
  let left := getRegister l
  (if dest ≠ "rdx" then ["    push rdx"] else []) ++
  (if dest ≠ "rax" then ["    push rax"] else []) ++
  (if left ≠ "rax" then ["    mov rax, " ++ left] else []) ++
  ["    xor rdx, rdx"] ++
  (match r with
   | .i n => ["    push r10", "    mov r10, " ++ Int.repr n, "    div r10", "    pop r10"]
   | .s v => ["    div " ++ (if isRegister v then getRegister v else "[" ++ (v ++ "]"))]) ++
  (if dest ≠ "rax" then ["    mov " ++ (dest ++ ", rax")] else []) ++
  (if dest ≠ "rax" then ["    pop rax"] else []) ++
  (if dest ≠ "rdx" then ["    pop rdx"] else [])

/-! # Theorems -/

/-! ## String helper lemmas -/

/-- Two strings differ if one extends a prefix that disagrees with the
other's corresponding prefix. -/
theorem append_ne_of_take_ne (p v t : String)
    (h : p.data ≠ t.data.take p.data.length) : p ++ v ≠ t := by
  intro he
  exact h (by rw [← he, String.data_append, List.take_left])

/-- Two strings differ if a character of one does not occur in the other. -/
theorem ne_of_mem_not_mem {c : Char} {s t : String}
    (h1 : c ∈ s.data) (h2 : c ∉ t.data) : s ≠ t :=
  fun he => h2 (he ▸ h1)

theorem mem_data_app_left (c : Char) (a b : String) (h : c ∈ a.data) :
    c ∈ (a ++ b).data := by
  rw [String.data_append]; exact List.mem_append_left _ h

theorem mem_data_app_right (c : Char) (a b : String) (h : c ∈ b.data) :
    c ∈ (a ++ b).data := by
  rw [String.data_append]; exact List.mem_append_right _ h

/-- A line starting with prefix `p` that already disagrees with all four
distinguished lines is an `okLine`. -/
theorem ok_pre (p v : String)
    (h : p.data ≠ sentP.data.take p.data.length ∧
         p.data ≠ sentR.data.take p.data.length ∧
         p.data ≠ glineS.data.take p.data.length ∧
         p.data ≠ slineS.data.take p.data.length) :
    okLine (p ++ v) :=
  ⟨append_ne_of_take_ne p v sentP h.1, append_ne_of_take_ne p v sentR h.2.1,
   append_ne_of_take_ne p v glineS h.2.2.1, append_ne_of_take_ne p v slineS h.2.2.2⟩

/-- Variant of `ok_pre` for lines of the shape `a ++ (b ++ v)` (an emitted
instruction: indent, opcode, operands). -/
theorem ok_pre2 (a b v : String)
    (h : (a ++ b).data ≠ sentP.data.take (a ++ b).data.length ∧
         (a ++ b).data ≠ sentR.data.take (a ++ b).data.length ∧
         (a ++ b).data ≠ glineS.data.take (a ++ b).data.length ∧
         (a ++ b).data ≠ slineS.data.take (a ++ b).data.length) :
    okLine (a ++ (b ++ v)) := by
  rw [← String.append_assoc]; exact ok_pre (a ++ b) v h

/-- A line containing a character that occurs in none of the four
distinguished lines is an `okLine`. -/
theorem ok_char (c : Char) {l : String} (hm : c ∈ l.data)
    (h : c ∉ sentP.data ∧ c ∉ sentR.data ∧ c ∉ glineS.data ∧ c ∉ slineS.data) :
    okLine l :=
  ⟨ne_of_mem_not_mem hm h.1, ne_of_mem_not_mem hm h.2.1,
   ne_of_mem_not_mem hm h.2.2.1, ne_of_mem_not_mem hm h.2.2.2⟩

/-- A label line equal to `_start:` comes from the name `_start`. -/
theorem label_eq_start {n : String} (h : n ++ ":" = "_start:") : n = "_start" := by
  have hd : n.data ++ [':'] = "_start".data ++ [':'] := by
    have h2 := congrArg String.data h
    rw [String.data_append] at h2
    exact h2
  have := List.append_cancel_right hd
  exact String.ext this

/-- A label line for a name other than `_start` is an `okLine` (no
distinguished line ends in a colon except `_start:`). -/
theorem ok_label (n : String) (h : n ≠ "_start") : okLine (n ++ ":") := by
  have hc : (':' : Char) ∈ (n ++ ":").data := mem_data_app_right ':' n ":" (by decide)
  exact ⟨ne_of_mem_not_mem hc (by decide), ne_of_mem_not_mem hc (by decide),
         ne_of_mem_not_mem hc (by decide), fun he => h (label_eq_start he)⟩

/-- Label lines for arbitrary names never match the helper sentinels. -/
theorem okS_label (n : String) : okS (n ++ ":") := by
  have hc : (':' : Char) ∈ (n ++ ":").data := mem_data_app_right ':' n ":" (by decide)
  exact ⟨ne_of_mem_not_mem hc (by decide), ne_of_mem_not_mem hc (by decide)⟩

/-- A control-flow label line `(p ++ counter) ++ ":"` with a distinctive
prefix `p` is an `okLine`. -/
theorem ok_labelPre (p r : String)
    (h : p.data ≠ sentP.data.take p.data.length ∧
         p.data ≠ sentR.data.take p.data.length ∧
         p.data ≠ glineS.data.take p.data.length ∧
         p.data ≠ slineS.data.take p.data.length) :
    okLine ((p ++ r) ++ ":") := by
  rw [String.append_assoc]; exact ok_pre p _ h

theorem okLine_okS {l : String} (h : okLine l) : okS l := ⟨h.1, h.2.1⟩

/-! ## `ExtendsP` combinators -/

theorem extP_refl (P : String → Prop) (st : GenState) : ExtendsP P st st :=
  ⟨[], [], [], by simp, by simp, by simp, by simp, by simp, by simp⟩

theorem extP_trans {P : String → Prop} {st₁ st₂ st₃ : GenState}
    (h1 : ExtendsP P st₁ st₂) (h2 : ExtendsP P st₂ st₃) : ExtendsP P st₁ st₃ := by
  obtain ⟨dd1, db1, dt1, hd1, hb1, ht1, pd1, pb1, pt1⟩ := h1
  obtain ⟨dd2, db2, dt2, hd2, hb2, ht2, pd2, pb2, pt2⟩ := h2
  refine ⟨dd1 ++ dd2, db1 ++ db2, dt1 ++ dt2, ?_, ?_, ?_, ?_, ?_, ?_⟩
  · rw [hd2, hd1, List.append_assoc]
  · rw [hb2, hb1, List.append_assoc]
  · rw [ht2, ht1, List.append_assoc]
  · intro l hl; rcases List.mem_append.1 hl with h | h
    · exact pd1 l h
    · exact pd2 l h
  · intro l hl; rcases List.mem_append.1 hl with h | h
    · exact pb1 l h
    · exact pb2 l h
  · intro l hl; rcases List.mem_append.1 hl with h | h
    · exact pt1 l h
    · exact pt2 l h

theorem extP_mono {P Q : String → Prop} (hPQ : ∀ l, P l → Q l)
    {st st' : GenState} (h : ExtendsP P st st') : ExtendsP Q st st' := by
  obtain ⟨dd, db, dt, hd, hb, ht, pd, pb, pt⟩ := h
  exact ⟨dd, db, dt, hd, hb, ht, fun l hl => hPQ l (pd l hl),
         fun l hl => hPQ l (pb l hl), fun l hl => hPQ l (pt l hl)⟩

theorem extP_emitT {P : String → Prop} (l : String) (st : GenState)
    (h : P ("    " ++ l)) : ExtendsP P st (emitT l st) :=
  ⟨[], [], ["    " ++ l], by simp [emitT], by simp [emitT], by simp [emitT],
   by simp, by simp, by simp [h]⟩

theorem extP_emitRaw {P : String → Prop} (l : String) (st : GenState)
    (h : P l) : ExtendsP P st (emitRaw l st) :=
  ⟨[], [], [l], by simp [emitRaw], by simp [emitRaw], by simp [emitRaw],
   by simp, by simp, by simp [h]⟩

theorem extP_emitLabelT {P : String → Prop} (l : String) (st : GenState)
    (h : P (l ++ ":")) : ExtendsP P st (emitLabelT l st) :=
  ⟨[], [], [l ++ ":"], by simp [emitLabelT], by simp [emitLabelT], by simp [emitLabelT],
   by simp, by simp, by simp [h]⟩

theorem extP_emitD {P : String → Prop} (l : String) (st : GenState)
    (h : P ("    " ++ l)) : ExtendsP P st (emitD l st) :=
  ⟨["    " ++ l], [], [], by simp [emitD], by simp [emitD], by simp [emitD],
   by simp [h], by simp, by simp⟩

theorem extP_emitB {P : String → Prop} (l : String) (st : GenState)
    (h : P ("    " ++ l)) : ExtendsP P st (emitB l st) :=
  ⟨[], ["    " ++ l], [], by simp [emitB], by simp [emitB], by simp [emitB],
   by simp, by simp [h], by simp⟩

theorem extP_same {P : String → Prop} {st st' : GenState}
    (h : st'.data = st.data ∧ st'.bss = st.bss ∧ st'.text = st.text) :
    ExtendsP P st st' :=
  ⟨[], [], [], by simp [h.1], by simp [h.2.1], by simp [h.2.2], by simp, by simp, by simp⟩

theorem extP_emitT_after {P : String → Prop} {st X : GenState}
    (h : ExtendsP P st X) (l : String) (hl : P ("    " ++ l)) :
    ExtendsP P st (emitT l X) :=
  extP_trans h (extP_emitT l X hl)

theorem extP_cond_emitT_after {P : String → Prop} {st X : GenState}
    (h : ExtendsP P st X) (c : Prop) [Decidable c] (l : String)
    (hl : P ("    " ++ l)) :
    ExtendsP P st (if c then emitT l X else X) := by
  split
  · exact extP_trans h (extP_emitT l X hl)
  · exact h

theorem extP_emitLabelT_after {P : String → Prop} {st X : GenState}
    (h : ExtendsP P st X) (l : String) (hl : P (l ++ ":")) :
    ExtendsP P st (emitLabelT l X) :=
  extP_trans h (extP_emitLabelT l X hl)

theorem extP_ite_emitT_after {P : String → Prop} {st X : GenState}
    (h : ExtendsP P st X) (c : Prop) [Decidable c] (l₁ l₂ : String)
    (h₁ : P ("    " ++ l₁)) (h₂ : P ("    " ++ l₂)) :
    ExtendsP P st (if c then emitT l₁ X else emitT l₂ X) := by
  split
  · exact extP_trans h (extP_emitT l₁ X h₁)
  · exact extP_trans h (extP_emitT l₂ X h₂)

/-- A `name dq value` data line contains a `q`, which occurs in none of the
distinguished lines. -/
theorem ok_dq (n r : String) : okLine ("    " ++ (n ++ (" dq " ++ r))) :=
  ok_char 'q'
    (mem_data_app_right 'q' "    " _
      (mem_data_app_right 'q' n _ (mem_data_app_left 'q' " dq " r (by decide))))
    ⟨by decide, by decide, by decide, by decide⟩

/-- A `name resq 1` bss line contains a `q`. -/
theorem ok_resq (n : String) : okLine ("    " ++ (n ++ " resq 1")) :=
  ok_char 'q'
    (mem_data_app_right 'q' "    " _ (mem_data_app_right 'q' n " resq 1" (by decide)))
    ⟨by decide, by decide, by decide, by decide⟩

/-- Condition lowering only appends `okLine`s. -/
theorem genCondition_extends (c : Condition) (lbl : String) (st : GenState) :
    ExtendsP okLine st (genCondition c lbl st) := by
  have h1 : ExtendsP okLine st
      (emitT "cmp r10, r11"
        (emitT ("mov r11, " ++ operandTxt c.right)
          (emitT ("mov r10, " ++ operandTxt c.left) st))) :=
    extP_emitT_after
      (extP_emitT_after
        (extP_emitT_after (extP_refl _ _) _ (ok_pre2 "    " "mov r10, " _ (by decide)))
        _ (ok_pre2 "    " "mov r11, " _ (by decide)))
      _ (by decide)
  simp only [genCondition]
  split_ifs <;>
    first
      | exact h1
      | exact extP_emitT_after h1 _ (ok_pre2 "    " "jne " _ (by decide))
      | exact extP_emitT_after h1 _ (ok_pre2 "    " "je " _ (by decide))
      | exact extP_emitT_after h1 _ (ok_pre2 "    " "jle " _ (by decide))
      | exact extP_emitT_after h1 _ (ok_pre2 "    " "jge " _ (by decide))
      | exact extP_emitT_after h1 _ (ok_pre2 "    " "jl " _ (by decide))
      | exact extP_emitT_after h1 _ (ok_pre2 "    " "jg " _ (by decide))

set_option maxHeartbeats 2000000 in
mutual

/-- Every line a statement lowering appends to any section is an `okLine`:
never a helper-body sentinel, never `    global _start`, never `_start:`
(function labels are only emitted when the queue is drained, not here). -/
theorem genStmt_extends : ∀ (s : Stmt) (st : GenState), ExtendsP okLine st (genStmt s st)
  | .func _ _, _ => extP_same ⟨rfl, rfl, rfl⟩
  | .varDecl n (some i), st =>
      extP_trans (extP_same ⟨rfl, rfl, rfl⟩) (extP_emitD _ _ (ok_dq n (Int.repr i)))
  | .varDecl n none, st =>
      extP_trans (extP_same ⟨rfl, rfl, rfl⟩) (extP_emitB _ _ (ok_resq n))
  | .load d (.i n), st => extP_emitT _ _ (ok_pre2 "    " "mov " _ (by decide))
  | .load d (.s r), st => by
      simp only [genStmt]
      split <;> exact extP_emitT _ _ (ok_pre2 "    " "mov " _ (by decide))
  | .set d (.i n), st => extP_emitT _ _ (ok_pre2 "    " "mov qword [" _ (by decide))
  | .set d (.s r), st => extP_emitT _ _ (ok_pre2 "    " "mov qword [" _ (by decide))
  | .move d (.s r), st => by
      simp only [genStmt]
      split
      · exact extP_emitT _ _ (ok_pre2 "    " "mov " _ (by decide))
      · exact extP_emitT_after
          (extP_emitT _ _ (ok_pre2 "    " "mov r10, [" _ (by decide)))
          _ (ok_pre2 "    " "mov " _ (by decide))
  | .move d (.i n), st =>
      extP_emitT_after
        (extP_emitT _ _ (ok_pre2 "    " "mov r10, " _ (by decide)))
        _ (ok_pre2 "    " "mov " _ (by decide))
  | .print v, st => by
      simp only [genStmt, loadValueToR15]
      exact extP_emitT_after
        (extP_emitT_after (extP_same ⟨rfl, rfl, rfl⟩)
          _ (ok_pre2 "    " "mov r15, " _ (by decide)))
        _ (by decide)
  | .input d, st => by
      simp only [genStmt]
      split
      · exact extP_emitT_after
          (extP_emitT_after (extP_same ⟨rfl, rfl, rfl⟩) _ (by decide))
          _ (ok_pre2 "    " "mov " _ (by decide))
      · exact extP_emitT_after
          (extP_emitT_after (extP_same ⟨rfl, rfl, rfl⟩) _ (by decide))
          _ (ok_pre2 "    " "mov [" _ (by decide))
  | .binaryOp op d l (.i n), st => by
      simp only [genStmt]
      split
      · -- DIV
        exact extP_cond_emitT_after
              (extP_cond_emitT_after
                (extP_cond_emitT_after
                  (extP_emitT_after
                    (extP_emitT_after
                      (extP_emitT_after
                        (extP_emitT_after
                          (extP_emitT_after
                            (extP_cond_emitT_after
                              (extP_cond_emitT_after
                                (extP_cond_emitT_after (extP_refl _ _)
                                  _ _ (by decide))
                                _ _ (by decide))
                              _ _ (ok_pre2 "    " "mov rax, " _ (by decide)))
                            _ (by decide))
                          _ (by decide))
                        _ (ok_pre2 "    " "mov r10, " _ (by decide)))
                      _ (by decide))
                    _ (by decide))
                  _ _ (ok_pre2 "    " "mov " _ (by decide)))
                _ _ (by decide))
              _ _ (by decide)
      · -- non-DIV op cascade over the optional initial mov
        have hM : ExtendsP okLine st
            (if getRegister d ≠ getRegister l then
              emitT ("mov " ++ (getRegister d ++ (", " ++ getRegister l))) st
            else st) :=
          extP_cond_emitT_after (extP_refl _ _) _ _ (ok_pre2 "    " "mov " _ (by decide))
        split
        · exact extP_emitT_after hM _ (ok_pre2 "    " "add " _ (by decide))
        · split
          · exact extP_emitT_after hM _ (ok_pre2 "    " "sub " _ (by decide))
          · split
            · exact extP_emitT_after hM _ (ok_pre2 "    " "imul " _ (by decide))
            · split
              · exact extP_emitT_after hM _ (ok_pre2 "    " "and " _ (by decide))
              · split
                · exact extP_emitT_after hM _ (ok_pre2 "    " "or " _ (by decide))
                · split
                  · exact extP_emitT_after hM _ (ok_pre2 "    " "xor " _ (by decide))
                  · exact hM
  | .binaryOp op d l (.s rv), st => by
      simp only [genStmt]
      split
      · -- DIV
        exact extP_cond_emitT_after
          (extP_cond_emitT_after
            (extP_cond_emitT_after
              (extP_emitT_after
                (extP_emitT_after
                  (extP_cond_emitT_after
                    (extP_cond_emitT_after
                      (extP_cond_emitT_after (extP_refl _ _)
                        _ _ (by decide))
                      _ _ (by decide))
                    _ _ (ok_pre2 "    " "mov rax, " _ (by decide)))
                  _ (by decide))
                _ (ok_pre2 "    " "div " _ (by decide)))
              _ _ (ok_pre2 "    " "mov " _ (by decide)))
            _ _ (by decide))
          _ _ (by decide)
      · have hM : ExtendsP okLine st
            (if getRegister d ≠ getRegister l then
              emitT ("mov " ++ (getRegister d ++ (", " ++ getRegister l))) st
            else st) :=
          extP_cond_emitT_after (extP_refl _ _) _ _ (ok_pre2 "    " "mov " _ (by decide))
        split
        · exact extP_emitT_after hM _ (ok_pre2 "    " "add " _ (by decide))
        · split
          · exact extP_emitT_after hM _ (ok_pre2 "    " "sub " _ (by decide))
          · split
            · exact extP_emitT_after hM _ (ok_pre2 "    " "imul " _ (by decide))
            · split
              · exact extP_emitT_after hM _ (ok_pre2 "    " "and " _ (by decide))
              · split
                · exact extP_emitT_after hM _ (ok_pre2 "    " "or " _ (by decide))
                · split
                  · exact extP_emitT_after hM _ (ok_pre2 "    " "xor " _ (by decide))
                  · exact hM
  | .unaryOp op o, st => by
      simp only [genStmt]
      split
      · exact extP_emitT _ _ (ok_pre2 "    " "inc " _ (by decide))
      · split
        · exact extP_emitT _ _ (ok_pre2 "    " "dec " _ (by decide))
        · split
          · exact extP_emitT _ _ (ok_pre2 "    " "not " _ (by decide))
          · exact extP_refl _ _
  | .shiftOp op d s c, st => by
      simp only [genStmt]
      have hM : ExtendsP okLine st
          (if getRegister d ≠ getRegister s then
            emitT ("mov " ++ (getRegister d ++ (", " ++ getRegister s))) st
          else st) :=
        extP_cond_emitT_after (extP_refl _ _) _ _ (ok_pre2 "    " "mov " _ (by decide))
      split
      · exact extP_emitT_after hM _ (ok_pre2 "    " "shl " _ (by decide))
      · split
        · exact extP_emitT_after hM _ (ok_pre2 "    " "shr " _ (by decide))
        · exact hM
  | .halt, st =>
      extP_emitT_after
        (extP_emitT_after (extP_emitT_after (extP_refl _ _) _ (by decide))
          _ (by decide))
        _ (by decide)
  | .nop, st => extP_emitRaw _ _ (by decide)
  | .call n, st => extP_emitT _ _ (ok_pre2 "    " "call " _ (by decide))
  | .ret (some r), st => by
      simp only [genStmt]
      exact extP_emitT_after
        (extP_cond_emitT_after (extP_refl _ _) _ _
          (ok_pre2 "    " "mov rax, " _ (by decide)))
        _ (by decide)
  | .ret none, st => by
      simp only [genStmt]
      exact extP_emitT _ _ (by decide)
  | .ifS c tb (some es), st => by
      simp only [genStmt]
      refine extP_emitLabelT_after ?_ _ (ok_labelPre "endif_" _ (by decide))
      refine extP_trans ?_ (genStmts_extends es _)
      refine extP_emitLabelT_after ?_ _ (ok_labelPre "else_" _ (by decide))
      refine extP_emitT_after ?_ _ (ok_pre2 "    " "jmp " _ (by decide))
      refine extP_trans ?_ (genStmts_extends tb _)
      refine extP_trans ?_ (genCondition_extends c _ _)
      exact extP_same ⟨rfl, rfl, rfl⟩
  | .ifS c tb none, st => by
      simp only [genStmt]
      refine extP_emitLabelT_after ?_ _ (ok_labelPre "else_" _ (by decide))
      refine extP_trans ?_ (genStmts_extends tb _)
      refine extP_trans ?_ (genCondition_extends c _ _)
      exact extP_same ⟨rfl, rfl, rfl⟩
  | .loopS v limit body, st => by
      simp only [genStmt]
      exact extP_emitLabelT_after
        (extP_emitT_after
          (extP_emitT_after
            (extP_trans
              (extP_emitT_after
                (extP_emitT_after
                  (extP_emitT_after
                    (extP_emitLabelT_after
                      (extP_emitT_after (extP_same ⟨rfl, rfl, rfl⟩)
                        _ (ok_pre2 "    " "mov qword [" _ (by decide)))
                      _ (ok_labelPre "loop_start_" _ (by decide)))
                    _ (ok_pre2 "    " "mov r10, [" _ (by decide)))
                  _ (ok_pre2 "    " "mov r11, " _ (by decide)))
                _ (by decide))
              (extP_trans
                (extP_emitT _ _ (ok_pre2 "    " "jge " _ (by decide)))
                (genStmts_extends body _)))
            _ (ok_pre2 "    " "inc qword [" _ (by decide)))
          _ (ok_pre2 "    " "jmp " _ (by decide)))
        _ (ok_labelPre "loop_end_" _ (by decide))
  | .whileS c body, st => by
      simp only [genStmt]
      refine extP_emitLabelT_after ?_ _ (ok_labelPre "while_end_" _ (by decide))
      refine extP_emitT_after ?_ _ (ok_pre2 "    " "jmp " _ (by decide))
      refine extP_trans ?_ (genStmts_extends body _)
      refine extP_trans ?_ (genCondition_extends c _ _)
      refine extP_emitLabelT_after ?_ _ (ok_labelPre "while_start_" _ (by decide))
      exact extP_same ⟨rfl, rfl, rfl⟩
  | .forS v first last step body, st => by
      simp only [genStmt]
      split
      · refine extP_emitLabelT_after ?_ _ (ok_labelPre "for_end_" _ (by decide))
        refine extP_emitT_after ?_ _ (ok_pre2 "    " "jmp " _ (by decide))
        refine extP_ite_emitT_after ?_ _ _ _
          (ok_pre2 "    " "inc qword [" _ (by decide))
          (ok_pre2 "    " "add qword [" _ (by decide))
        refine extP_trans ?_ (genStmts_extends body _)
        refine extP_emitT_after ?_ _ (ok_pre2 "    " "jg " _ (by decide))
        refine extP_emitT_after ?_ _ (by decide)
        refine extP_emitT_after ?_ _ (ok_pre2 "    " "mov r11, " _ (by decide))
        refine extP_emitT_after ?_ _ (ok_pre2 "    " "mov r10, [" _ (by decide))
        refine extP_emitLabelT_after ?_ _ (ok_labelPre "for_start_" _ (by decide))
        refine extP_emitT_after ?_ _ (ok_pre2 "    " "mov qword [" _ (by decide))
        exact extP_same ⟨rfl, rfl, rfl⟩
      · refine extP_emitLabelT_after ?_ _ (ok_labelPre "for_end_" _ (by decide))
        refine extP_emitT_after ?_ _ (ok_pre2 "    " "jmp " _ (by decide))
        refine extP_ite_emitT_after ?_ _ _ _
          (ok_pre2 "    " "inc qword [" _ (by decide))
          (ok_pre2 "    " "add qword [" _ (by decide))
        refine extP_trans ?_ (genStmts_extends body _)
        refine extP_emitT_after ?_ _ (ok_pre2 "    " "jg " _ (by decide))
        refine extP_emitT_after ?_ _ (by decide)
        refine extP_emitT_after ?_ _ (ok_pre2 "    " "mov r11, " _ (by decide))
        refine extP_emitT_after ?_ _ (ok_pre2 "    " "mov r10, [" _ (by decide))
        refine extP_emitLabelT_after ?_ _ (ok_labelPre "for_start_" _ (by decide))
        refine extP_emitT_after ?_ _ (ok_pre2 "    " "mov qword [" _ (by decide))
        exact extP_trans
          (extP_trans (extP_same ⟨rfl, rfl, rfl⟩) (extP_emitB _ _ (ok_resq v)))
          (extP_same ⟨rfl, rfl, rfl⟩)
  | .repeatS body c, st => by
      simp only [genStmt]
      refine extP_trans ?_ (genCondition_extends c _ _)
      refine extP_trans ?_ (genStmts_extends body _)
      refine extP_emitLabelT_after ?_ _ (ok_labelPre "repeat_start_" _ (by decide))
      exact extP_same ⟨rfl, rfl, rfl⟩
  | .label _, st => extP_refl _ _
  | .push _, st => extP_refl _ _
  | .pop _, st => extP_refl _ _
  | .compare _ _, st => extP_refl _ _
  | .jump _ _, st => extP_refl _ _
  termination_by s _ => sizeOf s

theorem genStmts_extends : ∀ (l : List Stmt) (st : GenState), ExtendsP okLine st (genStmts l st)
  | [], st => extP_refl _ _
  | s :: t, st => extP_trans (genStmt_extends s st) (genStmts_extends t (genStmt s st))
  termination_by l _ => sizeOf l

end

/-! ## Flag and function-queue bookkeeping -/

@[simp] theorem emitT_needsPrint (l : String) (st : GenState) : (emitT l st).needsPrint = st.needsPrint := rfl
@[simp] theorem emitT_needsRead (l : String) (st : GenState) : (emitT l st).needsRead = st.needsRead := rfl
@[simp] theorem emitT_functions (l : String) (st : GenState) : (emitT l st).functions = st.functions := rfl
@[simp] theorem emitT_labelCounter (l : String) (st : GenState) : (emitT l st).labelCounter = st.labelCounter := rfl
@[simp] theorem emitT_vars (l : String) (st : GenState) : (emitT l st).vars = st.vars := rfl
@[simp] theorem emitRaw_needsPrint (l : String) (st : GenState) : (emitRaw l st).needsPrint = st.needsPrint := rfl
@[simp] theorem emitRaw_needsRead (l : String) (st : GenState) : (emitRaw l st).needsRead = st.needsRead := rfl
@[simp] theorem emitRaw_functions (l : String) (st : GenState) : (emitRaw l st).functions = st.functions := rfl
@[simp] theorem emitRaw_labelCounter (l : String) (st : GenState) : (emitRaw l st).labelCounter = st.labelCounter := rfl
@[simp] theorem emitRaw_vars (l : String) (st : GenState) : (emitRaw l st).vars = st.vars := rfl
@[simp] theorem emitLabelT_needsPrint (l : String) (st : GenState) : (emitLabelT l st).needsPrint = st.needsPrint := rfl
@[simp] theorem emitLabelT_needsRead (l : String) (st : GenState) : (emitLabelT l st).needsRead = st.needsRead := rfl
@[simp] theorem emitLabelT_functions (l : String) (st : GenState) : (emitLabelT l st).functions = st.functions := rfl
@[simp] theorem emitLabelT_labelCounter (l : String) (st : GenState) : (emitLabelT l st).labelCounter = st.labelCounter := rfl
@[simp] theorem emitLabelT_vars (l : String) (st : GenState) : (emitLabelT l st).vars = st.vars := rfl
@[simp] theorem emitD_needsPrint (l : String) (st : GenState) : (emitD l st).needsPrint = st.needsPrint := rfl
@[simp] theorem emitD_needsRead (l : String) (st : GenState) : (emitD l st).needsRead = st.needsRead := rfl
@[simp] theorem emitD_functions (l : String) (st : GenState) : (emitD l st).functions = st.functions := rfl
@[simp] theorem emitD_labelCounter (l : String) (st : GenState) : (emitD l st).labelCounter = st.labelCounter := rfl
@[simp] theorem emitD_vars (l : String) (st : GenState) : (emitD l st).vars = st.vars := rfl
@[simp] theorem emitB_needsPrint (l : String) (st : GenState) : (emitB l st).needsPrint = st.needsPrint := rfl
@[simp] theorem emitB_needsRead (l : String) (st : GenState) : (emitB l st).needsRead = st.needsRead := rfl
@[simp] theorem emitB_functions (l : String) (st : GenState) : (emitB l st).functions = st.functions := rfl
@[simp] theorem emitB_labelCounter (l : String) (st : GenState) : (emitB l st).labelCounter = st.labelCounter := rfl
@[simp] theorem emitB_vars (l : String) (st : GenState) : (emitB l st).vars = st.vars := rfl

/-- Condition lowering touches only the text section. -/
theorem genCondition_state (c : Condition) (lbl : String) (st : GenState) :
    (genCondition c lbl st).needsPrint = st.needsPrint ∧
    (genCondition c lbl st).needsRead = st.needsRead ∧
    (genCondition c lbl st).functions = st.functions := by
  unfold genCondition
  split_ifs <;> simp

set_option maxHeartbeats 1000000 in
mutual

/-- Effect of a statement lowering on the helper flags and the function
queue: `needs_print_int`/`needs_read_int` pick up exactly the Print/Input
statements outside nested functions, and the queue gains exactly the
statement's maximal function subtrees, in order. -/
theorem genStmt_state : ∀ (s : Stmt) (st : GenState),
    (genStmt s st).needsPrint = (st.needsPrint || cpOut s) ∧
    (genStmt s st).needsRead = (st.needsRead || ciOut s) ∧
    (genStmt s st).functions = st.functions ++ fnsOf s
  | .func n b, st => by
      simp [genStmt, cpOut, ciOut, fnsOf]
  | .varDecl n (some i), st => by simp [genStmt, cpOut, ciOut, fnsOf]
  | .varDecl n none, st => by simp [genStmt, cpOut, ciOut, fnsOf]
  | .load d (.i n), st => by simp [genStmt, cpOut, ciOut, fnsOf]
  | .load d (.s r), st => by
      simp only [genStmt]
      split <;> simp [cpOut, ciOut, fnsOf]
  | .set d (.i n), st => by simp [genStmt, cpOut, ciOut, fnsOf]
  | .set d (.s r), st => by simp [genStmt, cpOut, ciOut, fnsOf]
  | .move d (.s r), st => by
      simp only [genStmt]
      split <;> simp [cpOut, ciOut, fnsOf]
  | .move d (.i n), st => by simp [genStmt, cpOut, ciOut, fnsOf]
  | .print v, st => by simp [genStmt, loadValueToR15, cpOut, ciOut, fnsOf]
  | .input d, st => by
      simp only [genStmt]
      split <;> simp [cpOut, ciOut, fnsOf]
  | .binaryOp op d l (.i n), st => by
      simp only [genStmt]
      split_ifs <;> simp [cpOut, ciOut, fnsOf]
  | .binaryOp op d l (.s rv), st => by
      simp only [genStmt]
      split_ifs <;> simp [cpOut, ciOut, fnsOf]
  | .unaryOp op o, st => by
      simp only [genStmt]
      split_ifs <;> simp [cpOut, ciOut, fnsOf]
  | .shiftOp op d s c, st => by
      simp only [genStmt]
      split_ifs <;> simp [cpOut, ciOut, fnsOf]
  | .halt, st => by simp [genStmt, cpOut, ciOut, fnsOf]
  | .nop, st => by simp [genStmt, cpOut, ciOut, fnsOf]
  | .call n, st => by simp [genStmt, cpOut, ciOut, fnsOf]
  | .ret (some r), st => by
      simp only [genStmt]
      split_ifs <;> simp [cpOut, ciOut, fnsOf]
  | .ret none, st => by simp [genStmt, cpOut, ciOut, fnsOf]
  | .ifS c tb (some es), st => by
      have htb := genStmts_state tb
      have hes := genStmts_state es
      have hc := genCondition_state c ("else_" ++ Nat.repr st.labelCounter)
        { st with labelCounter := st.labelCounter + 1 }
      simp [genStmt, cpOut, ciOut, fnsOf, (htb _).1, (htb _).2.1, (htb _).2.2,
        (hes _).1, (hes _).2.1, (hes _).2.2, hc.1, hc.2.1, hc.2.2,
        Bool.or_assoc, List.append_assoc]
  | .ifS c tb none, st => by
      have htb := genStmts_state tb
      have hc := genCondition_state c ("else_" ++ Nat.repr st.labelCounter)
        { st with labelCounter := st.labelCounter + 1 }
      simp [genStmt, cpOut, ciOut, fnsOf, (htb _).1, (htb _).2.1, (htb _).2.2,
        hc.1, hc.2.1, hc.2.2]
  | .loopS v limit body, st => by
      have hb := genStmts_state body
      simp [genStmt, cpOut, ciOut, fnsOf, (hb _).1, (hb _).2.1, (hb _).2.2]
  | .whileS c body, st => by
      have hb := genStmts_state body
      have hc := genCondition_state c
        ("while_end_" ++ Nat.repr st.labelCounter)
        (emitLabelT ("while_start_" ++ Nat.repr st.labelCounter)
          { st with labelCounter := st.labelCounter + 1 })
      simp [genStmt, cpOut, ciOut, fnsOf, (hb _).1, (hb _).2.1, (hb _).2.2,
        hc.1, hc.2.1, hc.2.2]
  | .forS v first last step body, st => by
      have hb := genStmts_state body
      simp only [genStmt]
      split <;> split_ifs <;>
        simp [cpOut, ciOut, fnsOf, (hb _).1, (hb _).2.1, (hb _).2.2]
  | .repeatS body c, st => by
      have hb := genStmts_state body
      have hc := genCondition_state c
        ("repeat_start_" ++ Nat.repr st.labelCounter)
        (genStmts body
          (emitLabelT ("repeat_start_" ++ Nat.repr st.labelCounter)
            { st with labelCounter := st.labelCounter + 1 }))
      simp [genStmt, cpOut, ciOut, fnsOf, (hb _).1, (hb _).2.1, (hb _).2.2,
        hc.1, hc.2.1, hc.2.2]
  | .label _, st => by simp [genStmt, cpOut, ciOut, fnsOf]
  | .push _, st => by simp [genStmt, cpOut, ciOut, fnsOf]
  | .pop _, st => by simp [genStmt, cpOut, ciOut, fnsOf]
  | .compare _ _, st => by simp [genStmt, cpOut, ciOut, fnsOf]
  | .jump _ _, st => by simp [genStmt, cpOut, ciOut, fnsOf]
  termination_by s _ => sizeOf s

theorem genStmts_state : ∀ (l : List Stmt) (st : GenState),
    (genStmts l st).needsPrint = (st.needsPrint || cpOutL l) ∧
    (genStmts l st).needsRead = (st.needsRead || ciOutL l) ∧
    (genStmts l st).functions = st.functions ++ fnsOfL l
  | [], st => by simp [genStmts, cpOutL, ciOutL, fnsOfL]
  | s :: t, st => by
      have hs := genStmt_state s st
      have ht := genStmts_state t (genStmt s st)
      simp [genStmts, cpOutL, ciOutL, fnsOfL, hs.1, hs.2.1, hs.2.2,
        ht.1, ht.2.1, ht.2.2, Bool.or_assoc, List.append_assoc]
  termination_by l _ => sizeOf l

end

/-! ## Containment decompositions and queue weights -/

/-- `genFunction` = label + body: effect on flags and queue. -/
theorem genFunction_state (f : String × List Stmt) (st : GenState) :
    (genFunction f st).needsPrint = (st.needsPrint || cpOutL f.2) ∧
    (genFunction f st).needsRead = (st.needsRead || ciOutL f.2) ∧
    (genFunction f st).functions = st.functions ++ fnsOfL f.2 := by
  have h := genStmts_state f.2 (emitLabelT f.1 st)
  simpa [genFunction] using h

theorem genFunction_extends_okS (f : String × List Stmt) (st : GenState) :
    ExtendsP okS st (genFunction f st) :=
  extP_trans (extP_emitLabelT _ _ (okS_label f.1))
    (extP_mono (fun _ h => okLine_okS h) (genStmts_extends f.2 _))

theorem genFunction_extends_okLine (f : String × List Stmt) (st : GenState)
    (h : f.1 ≠ "_start") : ExtendsP okLine st (genFunction f st) :=
  extP_trans (extP_emitLabelT _ _ (ok_label f.1 h)) (genStmts_extends f.2 _)

mutual

/-- A statement contains a Print iff it has one outside nested functions or
one of its queued functions contains one. -/
theorem hasPrint_decomp : ∀ s : Stmt,
    hasPrint s = (cpOut s || (fnsOf s).any (fun p => hasPrintL p.2))
  | .func n b => by simp [hasPrint, cpOut, fnsOf]
  | .varDecl _ _ => by simp [hasPrint, cpOut, fnsOf]
  | .load _ _ => by simp [hasPrint, cpOut, fnsOf]
  | .set _ _ => by simp [hasPrint, cpOut, fnsOf]
  | .move _ _ => by simp [hasPrint, cpOut, fnsOf]
  | .binaryOp _ _ _ _ => by simp [hasPrint, cpOut, fnsOf]
  | .unaryOp _ _ => by simp [hasPrint, cpOut, fnsOf]
  | .shiftOp _ _ _ _ => by simp [hasPrint, cpOut, fnsOf]
  | .label _ => by simp [hasPrint, cpOut, fnsOf]
  | .call _ => by simp [hasPrint, cpOut, fnsOf]
  | .ret _ => by simp [hasPrint, cpOut, fnsOf]
  | .loopS _ _ b => by
      simp [hasPrint, cpOut, fnsOf, hasPrintL_decomp b]
  | .whileS _ b => by
      simp [hasPrint, cpOut, fnsOf, hasPrintL_decomp b]
  | .forS _ _ _ _ b => by
      simp [hasPrint, cpOut, fnsOf, hasPrintL_decomp b]
  | .repeatS b _ => by
      simp [hasPrint, cpOut, fnsOf, hasPrintL_decomp b]
  | .ifS _ tb (some es) => by
      simp [hasPrint, cpOut, fnsOf, hasPrintL_decomp tb, hasPrintL_decomp es,
        List.any_append, Bool.or_assoc, Bool.or_comm, Bool.or_left_comm]
  | .ifS _ tb none => by
      simp [hasPrint, cpOut, fnsOf, hasPrintL_decomp tb]
  | .push _ => by simp [hasPrint, cpOut, fnsOf]
  | .pop _ => by simp [hasPrint, cpOut, fnsOf]
  | .print _ => by simp [hasPrint, cpOut, fnsOf]
  | .input _ => by simp [hasPrint, cpOut, fnsOf]
  | .halt => by simp [hasPrint, cpOut, fnsOf]
  | .nop => by simp [hasPrint, cpOut, fnsOf]
  | .compare _ _ => by simp [hasPrint, cpOut, fnsOf]
  | .jump _ _ => by simp [hasPrint, cpOut, fnsOf]
  termination_by s => sizeOf s

theorem hasPrintL_decomp : ∀ l : List Stmt,
    hasPrintL l = (cpOutL l || (fnsOfL l).any (fun p => hasPrintL p.2))
  | [] => by simp [hasPrintL, cpOutL, fnsOfL]
  | s :: t => by
      simp [hasPrintL, cpOutL, fnsOfL, hasPrint_decomp s, hasPrintL_decomp t,
        List.any_append, Bool.or_assoc, Bool.or_comm, Bool.or_left_comm]
  termination_by l => sizeOf l

end

mutual

/-- Same decomposition for Input statements. -/
theorem hasInput_decomp : ∀ s : Stmt,
    hasInput s = (ciOut s || (fnsOf s).any (fun p => hasInputL p.2))
  | .func n b => by simp [hasInput, ciOut, fnsOf]
  | .varDecl _ _ => by simp [hasInput, ciOut, fnsOf]
  | .load _ _ => by simp [hasInput, ciOut, fnsOf]
  | .set _ _ => by simp [hasInput, ciOut, fnsOf]
  | .move _ _ => by simp [hasInput, ciOut, fnsOf]
  | .binaryOp _ _ _ _ => by simp [hasInput, ciOut, fnsOf]
  | .unaryOp _ _ => by simp [hasInput, ciOut, fnsOf]
  | .shiftOp _ _ _ _ => by simp [hasInput, ciOut, fnsOf]
  | .label _ => by simp [hasInput, ciOut, fnsOf]
  | .call _ => by simp [hasInput, ciOut, fnsOf]
  | .ret _ => by simp [hasInput, ciOut, fnsOf]
  | .loopS _ _ b => by
      simp [hasInput, ciOut, fnsOf, hasInputL_decomp b]
  | .whileS _ b => by
      simp [hasInput, ciOut, fnsOf, hasInputL_decomp b]
  | .forS _ _ _ _ b => by
      simp [hasInput, ciOut, fnsOf, hasInputL_decomp b]
  | .repeatS b _ => by
      simp [hasInput, ciOut, fnsOf, hasInputL_decomp b]
  | .ifS _ tb (some es) => by
      simp [hasInput, ciOut, fnsOf, hasInputL_decomp tb, hasInputL_decomp es,
        List.any_append, Bool.or_assoc, Bool.or_comm, Bool.or_left_comm]
  | .ifS _ tb none => by
      simp [hasInput, ciOut, fnsOf, hasInputL_decomp tb]
  | .push _ => by simp [hasInput, ciOut, fnsOf]
  | .pop _ => by simp [hasInput, ciOut, fnsOf]
  | .print _ => by simp [hasInput, ciOut, fnsOf]
  | .input _ => by simp [hasInput, ciOut, fnsOf]
  | .halt => by simp [hasInput, ciOut, fnsOf]
  | .nop => by simp [hasInput, ciOut, fnsOf]
  | .compare _ _ => by simp [hasInput, ciOut, fnsOf]
  | .jump _ _ => by simp [hasInput, ciOut, fnsOf]
  termination_by s => sizeOf s

theorem hasInputL_decomp : ∀ l : List Stmt,
    hasInputL l = (ciOutL l || (fnsOfL l).any (fun p => hasInputL p.2))
  | [] => by simp [hasInputL, ciOutL, fnsOfL]
  | s :: t => by
      simp [hasInputL, ciOutL, fnsOfL, hasInput_decomp s, hasInputL_decomp t,
        List.any_append, Bool.or_assoc, Bool.or_comm, Bool.or_left_comm]
  termination_by l => sizeOf l

end

mutual

/-- In a `_start`-free statement, every queued function has a name other
than `_start` and a `_start`-free body. -/
theorem noStart_fns : ∀ s : Stmt, noStart s = true →
    ∀ p ∈ fnsOf s, p.1 ≠ "_start" ∧ noStartL p.2 = true
  | .func n b => by
      intro h p hp
      simp [fnsOf] at hp
      subst hp
      simp [noStart] at h
      exact ⟨h.1, h.2⟩
  | .varDecl _ _ => by intro _ p hp; simp [fnsOf] at hp
  | .load _ _ => by intro _ p hp; simp [fnsOf] at hp
  | .set _ _ => by intro _ p hp; simp [fnsOf] at hp
  | .move _ _ => by intro _ p hp; simp [fnsOf] at hp
  | .binaryOp _ _ _ _ => by intro _ p hp; simp [fnsOf] at hp
  | .unaryOp _ _ => by intro _ p hp; simp [fnsOf] at hp
  | .shiftOp _ _ _ _ => by intro _ p hp; simp [fnsOf] at hp
  | .label _ => by intro _ p hp; simp [fnsOf] at hp
  | .call _ => by intro _ p hp; simp [fnsOf] at hp
  | .ret _ => by intro _ p hp; simp [fnsOf] at hp
  | .loopS _ _ b => by
      intro h p hp
      simp only [fnsOf] at hp
      exact noStartL_fns b (by simpa [noStart] using h) p hp
  | .whileS _ b => by
      intro h p hp
      simp only [fnsOf] at hp
      exact noStartL_fns b (by simpa [noStart] using h) p hp
  | .forS _ _ _ _ b => by
      intro h p hp
      simp only [fnsOf] at hp
      exact noStartL_fns b (by simpa [noStart] using h) p hp
  | .repeatS b _ => by
      intro h p hp
      simp only [fnsOf] at hp
      exact noStartL_fns b (by simpa [noStart] using h) p hp
  | .ifS _ tb (some es) => by
      intro h p hp
      simp only [fnsOf] at hp
      simp only [noStart, Bool.and_eq_true] at h
      rcases List.mem_append.1 hp with hm | hm
      · exact noStartL_fns tb h.1 p hm
      · exact noStartL_fns es h.2 p hm
  | .ifS _ tb none => by
      intro h p hp
      simp only [fnsOf] at hp
      simp only [noStart, Bool.and_eq_true] at h
      exact noStartL_fns tb h.1 p (by simpa using hp)
  | .push _ => by intro _ p hp; simp [fnsOf] at hp
  | .pop _ => by intro _ p hp; simp [fnsOf] at hp
  | .print _ => by intro _ p hp; simp [fnsOf] at hp
  | .input _ => by intro _ p hp; simp [fnsOf] at hp
  | .halt => by intro _ p hp; simp [fnsOf] at hp
  | .nop => by intro _ p hp; simp [fnsOf] at hp
  | .compare _ _ => by intro _ p hp; simp [fnsOf] at hp
  | .jump _ _ => by intro _ p hp; simp [fnsOf] at hp
  termination_by s => sizeOf s

theorem noStartL_fns : ∀ l : List Stmt, noStartL l = true →
    ∀ p ∈ fnsOfL l, p.1 ≠ "_start" ∧ noStartL p.2 = true
  | [] => by intro _ p hp; simp [fnsOfL] at hp
  | s :: t => by
      intro h p hp
      simp only [fnsOfL] at hp
      simp only [noStartL, Bool.and_eq_true] at h
      rcases List.mem_append.1 hp with hm | hm
      · exact noStart_fns s h.1 p hm
      · exact noStartL_fns t h.2 p hm
  termination_by l => sizeOf l

end

theorem wSum_append (a b : List (String × List Stmt)) :
    wSum (a ++ b) = wSum a + wSum b := by
  simp [wSum]

mutual

/-- The queued functions of a statement weigh no more than the statement. -/
theorem wSum_fnsOf_le : ∀ s : Stmt, wSum (fnsOf s) ≤ wStmt s
  | .func n b => by simp [fnsOf, wSum, wPair, wStmt]
  | .varDecl _ _ => by simp [fnsOf, wSum, wStmt]
  | .load _ _ => by simp [fnsOf, wSum, wStmt]
  | .set _ _ => by simp [fnsOf, wSum, wStmt]
  | .move _ _ => by simp [fnsOf, wSum, wStmt]
  | .binaryOp _ _ _ _ => by simp [fnsOf, wSum, wStmt]
  | .unaryOp _ _ => by simp [fnsOf, wSum, wStmt]
  | .shiftOp _ _ _ _ => by simp [fnsOf, wSum, wStmt]
  | .label _ => by simp [fnsOf, wSum, wStmt]
  | .call _ => by simp [fnsOf, wSum, wStmt]
  | .ret _ => by simp [fnsOf, wSum, wStmt]
  | .loopS _ _ b => by
      have := wSum_fnsOfL_le b
      simp only [fnsOf, wStmt]
      omega
  | .whileS _ b => by
      have := wSum_fnsOfL_le b
      simp only [fnsOf, wStmt]
      omega
  | .forS _ _ _ _ b => by
      have := wSum_fnsOfL_le b
      simp only [fnsOf, wStmt]
      omega
  | .repeatS b _ => by
      have := wSum_fnsOfL_le b
      simp only [fnsOf, wStmt]
      omega
  | .ifS _ tb (some es) => by
      have h1 := wSum_fnsOfL_le tb
      have h2 := wSum_fnsOfL_le es
      simp only [fnsOf, wStmt, wSum_append]
      omega
  | .ifS _ tb none => by
      have h1 := wSum_fnsOfL_le tb
      simp only [fnsOf, wStmt, List.append_nil]
      omega
  | .push _ => by simp [fnsOf, wSum, wStmt]
  | .pop _ => by simp [fnsOf, wSum, wStmt]
  | .print _ => by simp [fnsOf, wSum, wStmt]
  | .input _ => by simp [fnsOf, wSum, wStmt]
  | .halt => by simp [fnsOf, wSum, wStmt]
  | .nop => by simp [fnsOf, wSum, wStmt]
  | .compare _ _ => by simp [fnsOf, wSum, wStmt]
  | .jump _ _ => by simp [fnsOf, wSum, wStmt]
  termination_by s => sizeOf s

theorem wSum_fnsOfL_le : ∀ l : List Stmt, wSum (fnsOfL l) ≤ wList l
  | [] => by simp [fnsOfL, wSum, wList]
  | s :: t => by
      have h1 := wSum_fnsOf_le s
      have h2 := wSum_fnsOfL_le t
      simp only [fnsOfL, wList, wSum_append]
      omega
  termination_by l => sizeOf l

end

/-! ## The function-queue drain loop -/

theorem drainFns_extends_okS : ∀ (fuel : Nat) (st : GenState) (i : Nat),
    ExtendsP okS st (drainFns fuel st i)
  | 0, st, i => extP_refl _ _
  | fuel + 1, st, i => by
      simp only [drainFns]
      split
      · exact extP_trans (genFunction_extends_okS _ _) (drainFns_extends_okS fuel _ _)
      · exact extP_refl _ _

theorem drainFns_extends_okLine : ∀ (fuel : Nat) (st : GenState) (i : Nat),
    (∀ p ∈ st.functions.drop i, p.1 ≠ "_start" ∧ noStartL p.2 = true) →
    ExtendsP okLine st (drainFns fuel st i)
  | 0, st, i, _ => extP_refl _ _
  | fuel + 1, st, i, hp => by
      simp only [drainFns]
      split
      case isTrue h =>
        have hdrop : st.functions.drop i = st.functions[i] :: st.functions.drop (i + 1) :=
          List.drop_eq_getElem_cons h
        have hmem : st.functions[i] ∈ st.functions.drop i := by
          rw [hdrop]; exact List.mem_cons_self _ _
        refine extP_trans (genFunction_extends_okLine _ _ (hp _ hmem).1)
          (drainFns_extends_okLine fuel _ (i + 1) ?_)
        intro p hpmem
        rw [(genFunction_state st.functions[i] st).2.2,
          List.drop_append_of_le_length (by omega)] at hpmem
        rcases List.mem_append.1 hpmem with hm | hm
        · exact hp _ (by rw [hdrop]; exact List.mem_cons_of_mem _ hm)
        · exact noStartL_fns _ (hp _ hmem).2 p hm
      case isFalse => exact extP_refl _ _

theorem drainFns_flags : ∀ (fuel : Nat) (st : GenState) (i : Nat),
    queueWeight st i < fuel →
    (drainFns fuel st i).needsPrint
        = (st.needsPrint || (st.functions.drop i).any (fun p => hasPrintL p.2)) ∧
    (drainFns fuel st i).needsRead
        = (st.needsRead || (st.functions.drop i).any (fun p => hasInputL p.2))
  | 0, _, _, h => absurd h (Nat.not_lt_zero _)
  | fuel + 1, st, i, hfuel => by
      simp only [drainFns]
      split
      case isTrue h =>
        have hdrop : st.functions.drop i = st.functions[i] :: st.functions.drop (i + 1) :=
          List.drop_eq_getElem_cons h
        have hqw : queueWeight st i = wPair st.functions[i] + queueWeight st (i + 1) := by
          unfold queueWeight
          rw [hdrop, List.map_cons, List.sum_cons]
        have hst' := genFunction_state st.functions[i] st
        have hq' : queueWeight (genFunction st.functions[i] st) (i + 1) < fuel := by
          have hb := wSum_fnsOfL_le st.functions[i].2
          have hw : wPair st.functions[i] = 1 + wList st.functions[i].2 := rfl
          have he : queueWeight (genFunction st.functions[i] st) (i + 1)
              = queueWeight st (i + 1) + wSum (fnsOfL st.functions[i].2) := by
            unfold queueWeight
            rw [hst'.2.2, List.drop_append_of_le_length (by omega), List.map_append,
              List.sum_append]
            rfl
          rw [he]
          omega
        have IH := drainFns_flags fuel _ (i + 1) hq'
        constructor
        · rw [IH.1, hst'.1, hst'.2.2, List.drop_append_of_le_length (by omega), hdrop,
            List.any_cons]
          simp only [List.any_append, hasPrintL_decomp st.functions[i].2]
          cases st.needsPrint <;> cases cpOutL st.functions[i].2 <;>
            cases (fnsOfL st.functions[i].2).any (fun p => hasPrintL p.2) <;>
            cases (st.functions.drop (i + 1)).any (fun p => hasPrintL p.2) <;> rfl
        · rw [IH.2, hst'.2.1, hst'.2.2, List.drop_append_of_le_length (by omega), hdrop,
            List.any_cons]
          simp only [List.any_append, hasInputL_decomp st.functions[i].2]
          cases st.needsRead <;> cases ciOutL st.functions[i].2 <;>
            cases (fnsOfL st.functions[i].2).any (fun p => hasInputL p.2) <;>
            cases (st.functions.drop (i + 1)).any (fun p => hasInputL p.2) <;> rfl
      case isFalse h =>
        rw [List.drop_eq_nil_of_le (Nat.le_of_not_lt h)]
        simp

/-! ## Finalisation bookkeeping -/

theorem addIoBuffers_parts (st : GenState) :
    (addIoBuffers st).text = st.text ∧
    (addIoBuffers st).bss = st.bss ∧
    (addIoBuffers st).needsPrint = st.needsPrint ∧
    (addIoBuffers st).needsRead = st.needsRead ∧
    (addIoBuffers st).data = st.data ++
      ((if st.needsPrint then ["    newline db 10", "    digit_buffer times 20 db 0"] else []) ++
       (if st.needsRead then ["    input_buffer times 32 db 0"] else [])) := by
  unfold addIoBuffers
  split_ifs <;> simp_all [emitD]

theorem addExitCode_parts (st : GenState) :
    (addExitCode st).data = st.data ∧
    (addExitCode st).bss = st.bss ∧
    (addExitCode st).needsPrint = st.needsPrint ∧
    (addExitCode st).needsRead = st.needsRead ∧
    (addExitCode st).text = st.text ++ ["    mov rax, 60", "    mov rdi, 0", "    syscall"] := by
  unfold addExitCode
  simp [emitT]

theorem addHelperFunctions_parts (st : GenState) :
    (addHelperFunctions st).data = st.data ∧
    (addHelperFunctions st).bss = st.bss ∧
    (addHelperFunctions st).text = st.text ++
      ((if st.needsPrint then printIntLines else []) ++
       (if st.needsRead then readIntLines else [])) := by
  unfold addHelperFunctions
  split_ifs <;> simp_all

/-- Everything `generate` computes, packaged: the state after the body and
the queue drain extends the initialised sections by `okS` lines (by `okLine`
lines when no function is named `_start`), its helper flags say exactly
whether the program contains a Print / an Input anywhere, and finalisation
is the three fixed steps applied to it. -/
theorem generate_decomp (prog : List Stmt) :
    ∃ st2 : GenState,
      ExtendsP okS (emitLabelT "main_code" initState) st2 ∧
      (noStartL prog = true → ExtendsP okLine (emitLabelT "main_code" initState) st2) ∧
      st2.needsPrint = hasPrintL prog ∧
      st2.needsRead = hasInputL prog ∧
      generate prog = addHelperFunctions (addExitCode (addIoBuffers st2)) := by
  refine ⟨drainFns (queueWeight (genStmts prog (emitLabelT "main_code" initState)) 0 + 1)
      (genStmts prog (emitLabelT "main_code" initState)) 0, ?_, ?_, ?_, ?_, rfl⟩
  · exact extP_trans
      (extP_mono (fun _ h => okLine_okS h) (genStmts_extends prog _))
      (drainFns_extends_okS _ _ _)
  · intro hns
    refine extP_trans (genStmts_extends prog _) (drainFns_extends_okLine _ _ 0 ?_)
    intro p hp
    rw [List.drop_zero, (genStmts_state prog (emitLabelT "main_code" initState)).2.2] at hp
    have hbase : (emitLabelT "main_code" initState).functions = [] := rfl
    rw [hbase, List.nil_append] at hp
    exact noStartL_fns prog hns p hp
  · rw [(drainFns_flags _ _ 0 (Nat.lt_succ_self _)).1,
      (genStmts_state prog (emitLabelT "main_code" initState)).1, List.drop_zero,
      (genStmts_state prog (emitLabelT "main_code" initState)).2.2]
    have hbase : (emitLabelT "main_code" initState).functions = [] := rfl
    have hflag : (emitLabelT "main_code" initState).needsPrint = false := rfl
    rw [hbase, List.nil_append, hflag, hasPrintL_decomp prog]
    simp
  · rw [(drainFns_flags _ _ 0 (Nat.lt_succ_self _)).2,
      (genStmts_state prog (emitLabelT "main_code" initState)).2.1, List.drop_zero,
      (genStmts_state prog (emitLabelT "main_code" initState)).2.2]
    have hbase : (emitLabelT "main_code" initState).functions = [] := rfl
    have hflag : (emitLabelT "main_code" initState).needsRead = false := rfl
    rw [hbase, List.nil_append, hflag, hasInputL_decomp prog]
    simp

/-- Membership in an `ite` of lists comes from one of the branches. -/
theorem mem_ite (x : String) (c : Prop) [Decidable c] (A B : List String)
    (h : x ∈ (if c then A else B)) : x ∈ A ∨ x ∈ B := by
  split at h
  · exact Or.inl h
  · exact Or.inr h

/-- Membership in a flag-guarded block forces the flag on. -/
theorem mem_ite_flag (x : String) (b : Bool) (A : List String)
    (h : x ∈ (if b = true then A else [])) : b = true ∧ x ∈ A := by
  split at h
  · exact ⟨by assumption, h⟩
  · simp at h

/-- Where can a non-`okS` line (a helper-body sentinel) in the final output
come from?  Only from a helper block, and only when the corresponding flag is
set: every other line of the output is a fixed framework line, an I/O buffer
line, or an `okS` line appended by statement/function lowering. -/
theorem sentinel_in_output (x : String) (st2 : GenState)
    (hS : ExtendsP okS (emitLabelT "main_code" initState) st2)
    (hnotS : ¬ okS x)
    (hfixed : ¬ x ∈ (["section .data", "    newline db 10",
        "    digit_buffer times 20 db 0", "    input_buffer times 32 db 0", "",
        "section .bss", "section .text", "    global _start", "_start:",
        "    jmp main_code", "main_code:", "    mov rax, 60", "    mov rdi, 0",
        "    syscall"] : List String))
    (hmem : x ∈ outputLines (addHelperFunctions (addExitCode (addIoBuffers st2)))) :
    (st2.needsPrint = true ∧ x ∈ printIntLines) ∨
    (st2.needsRead = true ∧ x ∈ readIntLines) := by
  obtain ⟨dd, db, dt, hd, hbs, ht, pd, pb, pt⟩ := hS
  have hio := addIoBuffers_parts st2
  have hec := addExitCode_parts (addIoBuffers st2)
  have hhf := addHelperFunctions_parts (addExitCode (addIoBuffers st2))
  have hnd : x ∉ dd := fun hm => hnotS (pd x hm)
  have hnb : x ∉ db := fun hm => hnotS (pb x hm)
  have hnt : x ∉ dt := fun hm => hnotS (pt x hm)
  have hbd : (emitLabelT "main_code" initState).data = ["section .data"] := rfl
  have hbb : (emitLabelT "main_code" initState).bss = ["section .bss"] := rfl
  have hbt : (emitLabelT "main_code" initState).text
      = ["section .text", "    global _start", "", "_start:", "    jmp main_code",
         "main_code:"] := rfl
  rw [hbd] at hd
  rw [hbb] at hbs
  rw [hbt] at ht
  unfold outputLines at hmem
  rw [hhf.1, hec.1, hio.2.2.2.2, hd, hhf.2.1, hec.2.1, hio.2.1, hbs,
    hhf.2.2, hec.2.2.2.2, hio.1, ht, hec.2.2.1, hio.2.2.1, hec.2.2.2.1,
    hio.2.2.2.1] at hmem
  simp only [List.mem_append] at hmem
  rcases hmem with (hm | hm) | hm
  · -- data chunk
    rcases mem_ite x _ _ _ hm with hm | hm
    · simp only [List.mem_append, List.mem_cons, List.not_mem_nil, or_false] at hm
      rcases hm with ((hm | hm) | hm | hm) | hm
      · exact absurd (by rw [hm]; decide) hfixed
      · exact absurd hm hnd
      · have hm2 := (mem_ite_flag x _ _ hm).2
        simp only [List.mem_cons, List.not_mem_nil, or_false] at hm2
        rcases hm2 with hm2 | hm2 <;> exact absurd (by rw [hm2]; decide) hfixed
      · have hm2 := (mem_ite_flag x _ _ hm).2
        simp only [List.mem_cons, List.not_mem_nil, or_false] at hm2
        exact absurd (by rw [hm2]; decide) hfixed
      · exact absurd (by rw [hm]; decide) hfixed
    · simp at hm
  · -- bss chunk
    rcases mem_ite x _ _ _ hm with hm | hm
    · simp only [List.mem_append, List.mem_cons, List.not_mem_nil, or_false] at hm
      rcases hm with (hm | hm) | hm
      · exact absurd (by rw [hm]; decide) hfixed
      · exact absurd hm hnb
      · exact absurd (by rw [hm]; decide) hfixed
    · simp at hm
  · -- text chunk
    simp only [List.mem_append, List.mem_cons, List.not_mem_nil, or_false] at hm
    rcases hm with ((hm | hm) | hm) | (hm | hm)
    · rcases hm with hm | hm | hm | hm | hm | hm <;>
        exact absurd (by rw [hm]; decide) hfixed
    · exact absurd hm hnt
    · rcases hm with hm | hm | hm <;>
        exact absurd (by rw [hm]; decide) hfixed
    · exact Or.inl (mem_ite_flag x _ _ hm)
    · exact Or.inr (mem_ite_flag x _ _ hm)

/-- C7: the generated output contains the `print_int` helper block exactly
when the program contains a `Print` statement anywhere (function bodies and
nested blocks included), and the `read_int` helper block exactly when it
contains an `Input` statement.  Containment is contiguous-block containment
(`IsInfix`) in the emitted line list. -/
theorem C7_helper_blocks_iff_print_input (prog : List Stmt) :
    (printIntLines <:+: outputLines (generate prog) ↔ hasPrintL prog = true) ∧
    (readIntLines <:+: outputLines (generate prog) ↔ hasInputL prog = true) := by
  obtain ⟨st2, hS, _, hP, hR, hgen⟩ := generate_decomp prog
  have hio := addIoBuffers_parts st2
  have hec := addExitCode_parts (addIoBuffers st2)
  have hhf := addHelperFunctions_parts (addExitCode (addIoBuffers st2))
  have hFtext : (addHelperFunctions (addExitCode (addIoBuffers st2))).text
      = st2.text ++ ["    mov rax, 60", "    mov rdi, 0", "    syscall"] ++
        ((if st2.needsPrint then printIntLines else []) ++
         (if st2.needsRead then readIntLines else [])) := by
    rw [hhf.2.2, hec.2.2.2.2, hio.1, hec.2.2.1, hio.2.2.1, hec.2.2.2.1, hio.2.2.2.1]
  constructor
  · constructor
    · intro hinf
      by_contra hnp
      have hp2 : st2.needsPrint = false := by
        rw [hP]; exact Bool.eq_false_iff.mpr hnp
      have hmem : sentP ∈ outputLines (generate prog) :=
        hinf.subset (show sentP ∈ printIntLines by decide)
      rw [hgen] at hmem
      rcases sentinel_in_output sentP st2 hS (by decide) (by decide) hmem with
        ⟨hpp, _⟩ | ⟨_, hmm⟩
      · rw [hp2] at hpp; cases hpp
      · exact absurd hmm (by decide)
    · intro hp
      have hp2 : st2.needsPrint = true := by rw [hP]; exact hp
      rw [hgen]
      refine ⟨(if (addHelperFunctions (addExitCode (addIoBuffers st2))).data.length > 1
          then (addHelperFunctions (addExitCode (addIoBuffers st2))).data ++ [""] else []) ++
          (if (addHelperFunctions (addExitCode (addIoBuffers st2))).bss.length > 1
          then (addHelperFunctions (addExitCode (addIoBuffers st2))).bss ++ [""] else []) ++
          (st2.text ++ ["    mov rax, 60", "    mov rdi, 0", "    syscall"]),
        (if st2.needsRead then readIntLines else []), ?_⟩
      unfold outputLines
      rw [hFtext, hp2]
      simp [List.append_assoc]
  · constructor
    · intro hinf
      by_contra hnr
      have hr2 : st2.needsRead = false := by
        rw [hR]; exact Bool.eq_false_iff.mpr hnr
      have hmem : sentR ∈ outputLines (generate prog) :=
        hinf.subset (show sentR ∈ readIntLines by decide)
      rw [hgen] at hmem
      rcases sentinel_in_output sentR st2 hS (by decide) (by decide) hmem with
        ⟨_, hmm⟩ | ⟨hrr, _⟩
      · exact absurd hmm (by decide)
      · rw [hr2] at hrr; cases hrr
    · intro hr
      have hr2 : st2.needsRead = true := by rw [hR]; exact hr
      rw [hgen]
      refine ⟨(if (addHelperFunctions (addExitCode (addIoBuffers st2))).data.length > 1
          then (addHelperFunctions (addExitCode (addIoBuffers st2))).data ++ [""] else []) ++
          (if (addHelperFunctions (addExitCode (addIoBuffers st2))).bss.length > 1
          then (addHelperFunctions (addExitCode (addIoBuffers st2))).bss ++ [""] else []) ++
          (st2.text ++ ["    mov rax, 60", "    mov rdi, 0", "    syscall"] ++
            (if st2.needsPrint then printIntLines else [])),
        [], ?_⟩
      unfold outputLines
      rw [hFtext, hr2]
      simp [List.append_assoc]

/-! ## Easy claim theorems -/

/-- C1: the spec's keyword table promises LOOP, ENDLOOP, WHILE, ENDWHILE,
FOR, ENDFOR, FROM, TO, STEP, REPEAT, UNTIL, PUSH and POP keyword tokens, but
those entries are commented out of `KEYWORD_DICT`, so every one of these
spellings is lexed as an IDENTIFIER token (while e.g. `VAR` still becomes a
keyword token).  This evaluates the lexer at the failing inputs. -/
theorem C1_missing_keywords_lex_as_identifiers :
    tokensKV (tokenize "LOOP ENDLOOP WHILE ENDWHILE FOR ENDFOR FROM TO STEP REPEAT UNTIL PUSH POP") =
      .ok [(.IDENTIFIER, .str "LOOP"), (.IDENTIFIER, .str "ENDLOOP"),
           (.IDENTIFIER, .str "WHILE"), (.IDENTIFIER, .str "ENDWHILE"),
           (.IDENTIFIER, .str "FOR"), (.IDENTIFIER, .str "ENDFOR"),
           (.IDENTIFIER, .str "FROM"), (.IDENTIFIER, .str "TO"),
           (.IDENTIFIER, .str "STEP"), (.IDENTIFIER, .str "REPEAT"),
           (.IDENTIFIER, .str "UNTIL"), (.IDENTIFIER, .str "PUSH"),
           (.IDENTIFIER, .str "POP"), (.EOF, .none)] ∧
    tokensKV (tokenize "while") = .ok [(.IDENTIFIER, .str "while"), (.EOF, .none)] ∧
    tokensKV (tokenize "VAR") = .ok [(.VAR, .str "VAR"), (.EOF, .none)] :=
  ⟨rfl, rfl, rfl⟩

/-- C2: `_tokenize_operators` is an empty stub, so `==`, `!=`, `<`, `>`,
`<=`, `>=` are skipped as unknown characters and no comparison token is ever
emitted; consequently any source with a condition fails to parse. -/
theorem C2_comparison_operators_not_lexed :
    tokensKV (tokenize "R1 == 10") =
      .ok [(.REGISTER, .str "R1"), (.NUMBER, .num 10), (.EOF, .none)] ∧
    tokensKV (tokenize "a <= b") =
      .ok [(.IDENTIFIER, .str "a"), (.IDENTIFIER, .str "b"), (.EOF, .none)] ∧
    (parseSrc "IF R1 == 10\nNOP\nENDIF").toOption = none :=
  ⟨rfl, rfl, rfl⟩

/-- C3: contrary to the claimed unary form, `NOT R1` is a parse error (the
parser demands `NOT reg , reg`), the two-operand form builds
`BinaryOp("NOT", dest, src, 0)`, and `generate_binary_op` has no NOT branch,
so its lowering emits only the register move and never a `not` instruction
(the unary lowering `generate_unary_op` would emit `not`, but the parser
never produces a unary NOT node). -/
theorem C3_not_requires_two_operands_and_emits_no_not :
    (parseSrc "NOT R1").toOption = none ∧
    parseSrc "NOT R1, R2" = .ok [.binaryOp "NOT" "R1" "R2" (.i 0)] ∧
    (genStmt (.binaryOp "NOT" "R1" "R2" (.i 0)) initState).text =
      initState.text ++ ["    mov rax, rbx"] ∧
    (genStmt (.unaryOp "NOT" "R1") initState).text =
      initState.text ++ ["    not rax"] :=
  ⟨rfl, rfl, rfl, rfl⟩

/-- C4 (counterexample): the lexer does raise.  On `-0x` (and `-0b`),
`read_number` builds `num_str = "-"` and calls `int("-", 16)`, which raises
`ValueError`, so `tokenize` propagates an error instead of returning a token
list. -/
theorem C4_lexer_raises_on_minus_hex :
    tokenize "-0x" = .error "ValueError: invalid literal for int() with base 16" ∧
    tokenize "-0b" = .error "ValueError: invalid literal for int() with base 2" :=
  ⟨rfl, rfl⟩

/-- C4 (amended): whenever `tokenize` does return a token list, that list
ends with an EOF token (the EOF append is unconditional on the success
path). -/
theorem C4_tokenize_ok_ends_with_EOF (s : String) (ts : List Token)
    (h : tokenize s = .ok ts) : (ts.map Token.type).getLast? = some .EOF := by
  unfold tokenize at h
  cases hl : lexLoop (s.length + 1) ⟨s.data, 1, 1⟩ with
  | error e => rw [hl] at h; cases h
  | ok p =>
    rw [hl] at h
    cases h
    rw [List.map_append]
    simp [List.getLast?_concat]

/-- Witness for C4 (amended) at the concrete input `"@"` (an unknown byte,
skipped; only EOF remains). -/
theorem C4_tokenize_ok_ends_with_EOF_witness :
    ∃ ts, tokenize "@" = .ok ts ∧ (ts.map Token.type).getLast? = some .EOF :=
  ⟨[⟨.EOF, .none, 1, 2⟩], rfl, C4_tokenize_ok_ends_with_EOF "@" _ rfl⟩

/-- C5: numeric literal decoding — `0x`/`0X` hexadecimal, `0b`/`0B` binary,
otherwise decimal; `0x1A` and `0b1010` decode to 26 and 10. -/
theorem C5_number_literal_bases :
    tokensKV (tokenize "0x1A") = .ok [(.NUMBER, .num 26), (.EOF, .none)] ∧
    tokensKV (tokenize "0b1010") = .ok [(.NUMBER, .num 10), (.EOF, .none)] ∧
    tokensKV (tokenize "0X1a") = .ok [(.NUMBER, .num 26), (.EOF, .none)] ∧
    tokensKV (tokenize "0B11") = .ok [(.NUMBER, .num 3), (.EOF, .none)] ∧
    tokensKV (tokenize "42") = .ok [(.NUMBER, .num 42), (.EOF, .none)] ∧
    tokensKV (tokenize "-7") = .ok [(.NUMBER, .num (-7)), (.EOF, .none)] :=
  ⟨rfl, rfl, rfl, rfl, rfl, rfl⟩

/-- C6 (counterexample): for an immediate right operand the generator also
saves and restores r10 around the division, so the emitted sequence is not
the claim's exact protocol. -/
theorem C6_div_immediate_diverges_from_claimed_protocol :
    (genStmt (.binaryOp "DIV" "R2" "R1" (.i 4)) initState).text ≠
      initState.text ++ divProtocolClaim "R2" "R1" (.i 4) := by
  decide

/-- C6 (amended): the DIV lowering follows the claimed protocol with one
addition — for an immediate right operand, r10 is saved before and restored
after the division (`push r10; mov r10, imm; div r10; pop r10`). -/
theorem C6_div_protocol_with_r10_save (d l : String) (r : SVal) (st : GenState) :
    (genStmt (.binaryOp "DIV" d l r) st).text = st.text ++ divProtocolAmended d l r := by
  cases r with
  | i n =>
    simp only [genStmt, divProtocolAmended, emitT]
    split_ifs <;> simp [List.append_assoc, ← String.append_assoc]
  | s v =>
    simp only [genStmt, divProtocolAmended, emitT]
    split_ifs <;> simp [List.append_assoc, ← String.append_assoc]

/-- C9: the compile pipeline is a pure function of the source text; the
debug flag (the `DEBUG` environment variable) only selects diagnostic
printing in the source and never changes the returned string, so any two
invocations on the same source agree byte for byte. -/
theorem C9_compile_deterministic_and_debug_independent
    (d₁ d₂ : Bool) (src : String) :
    compileTcToNasm d₁ src = compileTcToNasm d₂ src := rfl

/-- `generate_statement` runs left to right over a statement list. -/
theorem genStmts_append (a b : List Stmt) (st : GenState) :
    genStmts (a ++ b) st = genStmts b (genStmts a st) := by
  induction a generalizing st with
  | nil => simp [genStmts]
  | cons s t ih => simp [genStmts, ih]

/-- C10: a standalone label statement parses to a `Label` node, and the
generator's statement dispatch has no case for `Label`, so deleting the
statement leaves the generated output unchanged. -/
theorem C10_label_parses_and_generates_nothing (n : String) (pre post : List Stmt) :
    parseProgram [⟨.LABEL, .str n, 1, 1⟩, ⟨.EOF, .none, 1, 2⟩] = .ok [.label n] ∧
    outputLines (generate (pre ++ .label n :: post)) =
      outputLines (generate (pre ++ post)) := by
  constructor
  · rfl
  · have hsplit : ∀ st : GenState,
        genStmts (pre ++ .label n :: post) st = genStmts (pre ++ post) st := by
      intro st
      rw [genStmts_append, genStmts_append]
      simp [genStmts, genStmt]
    simp only [generate, hsplit]

/-- Counting in an `ite` of lists splits into the branches. -/
theorem count_ite (x : String) (c : Prop) [Decidable c] (A B : List String) :
    (if c then A else B).count x = (if c then A.count x else B.count x) := by
  split <;> rfl

/-- C8 counterexample: a source whose function is itself named `_start`
compiles successfully, and the emitted text contains the label line
`_start:` twice — once from the fixed prologue and once from the lowering of
the user function — refuting the exactly-once claim. -/
theorem C8_func_named_start_duplicates_label :
    (compileLines "FUNC _start\nRET\nENDFUNC").map (fun ls => ls.count slineS) =
      Except.ok 2 := by rfl

/-- C8 amended: for every program tree in which no function at any nesting
depth is named `_start`, the emitted line list contains the directive line
`    global _start` exactly once and the label line `_start:` exactly once. -/
theorem C8_amended_unique_start (prog : List Stmt) (h : noStartL prog = true) :
    (outputLines (generate prog)).count glineS = 1 ∧
    (outputLines (generate prog)).count slineS = 1 := by
  obtain ⟨st2, _, hOk, _, _, hgen⟩ := generate_decomp prog
  obtain ⟨dd, db, dt, hd, hbs, ht, pd, pb, pt⟩ := hOk h
  have hio := addIoBuffers_parts st2
  have hec := addExitCode_parts (addIoBuffers st2)
  have hhf := addHelperFunctions_parts (addExitCode (addIoBuffers st2))
  have hbd : (emitLabelT "main_code" initState).data = ["section .data"] := rfl
  have hbb : (emitLabelT "main_code" initState).bss = ["section .bss"] := rfl
  have hbt : (emitLabelT "main_code" initState).text
      = ["section .text", "    global _start", "", "_start:", "    jmp main_code",
         "main_code:"] := rfl
  rw [hbd] at hd
  rw [hbb] at hbs
  rw [hbt] at ht
  rw [hgen]
  unfold outputLines
  rw [hhf.1, hec.1, hio.2.2.2.2, hd, hhf.2.1, hec.2.1, hio.2.1, hbs,
    hhf.2.2, hec.2.2.2.2, hio.1, ht, hec.2.2.1, hio.2.2.1, hec.2.2.2.1,
    hio.2.2.2.1]
  have hddg : dd.count glineS = 0 := List.count_eq_zero.2 (fun hm => (pd _ hm).2.2.1 rfl)
  have hdds : dd.count slineS = 0 := List.count_eq_zero.2 (fun hm => (pd _ hm).2.2.2 rfl)
  have hdbg : db.count glineS = 0 := List.count_eq_zero.2 (fun hm => (pb _ hm).2.2.1 rfl)
  have hdbs : db.count slineS = 0 := List.count_eq_zero.2 (fun hm => (pb _ hm).2.2.2 rfl)
  have hdtg : dt.count glineS = 0 := List.count_eq_zero.2 (fun hm => (pt _ hm).2.2.1 rfl)
  have hdts : dt.count slineS = 0 := List.count_eq_zero.2 (fun hm => (pt _ hm).2.2.2 rfl)
  constructor
  · simp only [List.count_append, count_ite, List.count_nil, hddg, hdbg, hdtg,
      (by decide : (["section .data"] : List String).count glineS = 0),
      (by decide : (["section .bss"] : List String).count glineS = 0),
      (by decide : ([""] : List String).count glineS = 0),
      (by decide : (["    newline db 10", "    digit_buffer times 20 db 0"] :
        List String).count glineS = 0),
      (by decide : (["    input_buffer times 32 db 0"] : List String).count glineS = 0),
      (by decide : (["section .text", "    global _start", "", "_start:",
        "    jmp main_code", "main_code:"] : List String).count glineS = 1),
      (by decide : (["    mov rax, 60", "    mov rdi, 0", "    syscall"] :
        List String).count glineS = 0),
      (by decide : printIntLines.count glineS = 0),
      (by decide : readIntLines.count glineS = 0),
      ite_self, Nat.add_zero, Nat.zero_add]
  · simp only [List.count_append, count_ite, List.count_nil, hdds, hdbs, hdts,
      (by decide : (["section .data"] : List String).count slineS = 0),
      (by decide : (["section .bss"] : List String).count slineS = 0),
      (by decide : ([""] : List String).count slineS = 0),
      (by decide : (["    newline db 10", "    digit_buffer times 20 db 0"] :
        List String).count slineS = 0),
      (by decide : (["    input_buffer times 32 db 0"] : List String).count slineS = 0),
      (by decide : (["section .text", "    global _start", "", "_start:",
        "    jmp main_code", "main_code:"] : List String).count slineS = 1),
      (by decide : (["    mov rax, 60", "    mov rdi, 0", "    syscall"] :
        List String).count slineS = 0),
      (by decide : printIntLines.count slineS = 0),
      (by decide : readIntLines.count slineS = 0),
      ite_self, Nat.add_zero, Nat.zero_add]

/-- Witness for C8: the amended theorem applied to the empty program. -/
theorem C8_amended_unique_start_witness :
    noStartL [] = true ∧
    ((outputLines (generate [])).count glineS = 1 ∧
     (outputLines (generate [])).count slineS = 1) :=
  ⟨rfl, C8_amended_unique_start [] rfl⟩

end TC
